import Mathlib

/-!
Verification development for GitScan (src/GitScan.py), a single-file OSINT
tool that harvests email addresses from a GitHub account.  The Python source
is shallowly embedded: pure string operations become Lean functions on
`String` / `List Char`; each network-using method becomes a function from an
explicit response oracle (`FetchResult`) to its result, the updated shared
store (`FoundData`), and a trace of observable actions (`Act`): outbound
requests, sleeps, log lines, and store mutations tagged with whether the
store's single lock is held at that point.  Python `set` becomes
`Finset String`; Python exceptions raised by library calls are inputs
(`FetchResult.exn`); an unexpected exception inside a worker task is the
`TaskRun.raises` oracle.  Machine wall-clock time, the banner, and the plain
`print` presentation lines are not modelled (they touch no collected data).
-/

namespace GitScan

/-! ## Python string primitives -/

/-- Python `str.split(sep)` for a one-character separator, on character
lists.  Like Python's, it always returns a non-empty list: splitting a
string with no separator occurrence yields the single segment `[l]`. -/
def splitOnChar (sep : Char) : List Char → List (List Char)
  | [] => [[]]
  | c :: cs =>
    match splitOnChar sep cs with
    | [] => []
    | p :: ps => if c = sep then [] :: p :: ps else (c :: p) :: ps

/-- Python negative index `xs[-1]` on a list of segments.  Python raises
`IndexError` on an empty list; `splitOnChar` never produces one, so the
`[]` case below is unreachable from `is_personal_email`. -/
def py_last (l : List (List Char)) : List Char :=
  match l with
  | [] => []
  | [x] => x
  | _ :: x :: xs => py_last (x :: xs)

/-- Python `xs[-1]` with its `IndexError` behaviour made explicit. -/
def py_last_checked (l : List (List Char)) : Except String (List Char) :=
  match l with
  | [] => .error "IndexError: list index out of range"
  | x :: xs => .ok (py_last (x :: xs))

/-- Python `str.lower()` restricted to its ASCII action, on character
lists (all strings the classifier compares are ASCII domain names). -/
def lower_string (l : List Char) : List Char := l.map Char.toLower

/-- Python `str.replace(pat, repl)` (all non-overlapping occurrences, left
to right), with explicit fuel; the fuel `s.length` always suffices because
every step consumes at least one character of `s`.  The patterns used by
the source (`"github.com"`, `"/blob/"`) are non-empty. -/
def replaceAux (pat repl : List Char) : Nat → List Char → List Char
  | 0, s => s
  | fuel + 1, s =>
    match s with
    | [] => []
    | c :: cs =>
      if pat ≠ [] ∧ pat.isPrefixOf (c :: cs) then
        repl ++ replaceAux pat repl fuel ((c :: cs).drop pat.length)
      else
        c :: replaceAux pat repl fuel cs

/-- Python `s.replace(pat, repl)` on strings. -/
def pyReplace (s pat repl : String) : String :=
  ⟨replaceAux pat.toList repl.toList s.toList.length s.toList⟩

/-! ## The email regular expression

`re.findall(r'\b[A-Za-z0-9._%+-]+@[A-Za-z0-9.-]+\.[A-Z|a-z]{2,}\b', content)`
from `scan_repo_code`, executed with Python's backtracking semantics
(ASCII word characters).  Note the character class `[A-Z|a-z]` of the
top-level-domain part literally contains `'|'`, as in the source. -/

/-- `\w` (ASCII): letters, digits, underscore.  Used by `\b`. -/
def isWordChar (c : Char) : Bool := c.isAlphanum || c == '_'

/-- The local-part class `[A-Za-z0-9._%+-]`. -/
def isLocalChar (c : Char) : Bool :=
  c.isAlphanum || c == '.' || c == '_' || c == '%' || c == '+' || c == '-'

/-- The domain class `[A-Za-z0-9.-]`. -/
def isDomainChar (c : Char) : Bool := c.isAlphanum || c == '.' || c == '-'

/-- The class `[A-Z|a-z]` — letters and, literally, the bar. -/
def isTldChar (c : Char) : Bool := c.isAlpha || c == '|'

/-- `\b`: true when exactly one of the two neighbouring positions holds a
word character (`none` = outside the string). -/
def boundary (prev next : Option Char) : Bool :=
  (match prev with | some c => isWordChar c | none => false)
    != (match next with | some c => isWordChar c | none => false)

/-- Match `\.[A-Z|a-z]{2,}\b` against `afterDot`, the greedy `{2,}`
backtracking from longest to length 2 until the final `\b` holds.
Returns the whole match (local part, `@`, domain, dot, tld) and the rest. -/
def tryTld (localPart dom afterDot : List Char) :
    Option (List Char × List Char) :=
  let tlds := afterDot.takeWhile isTldChar
  ((List.range' 2 (tlds.length - 1)).reverse).findSome? fun t =>
    let tld := tlds.take t
    let rest := afterDot.drop t
    if boundary tld.getLast? rest.head? then
      some (localPart ++ '@' :: dom ++ '.' :: tld, rest)
    else none

/-- Match `[A-Za-z0-9.-]+\.[A-Z|a-z]{2,}\b` against `afterAt`: the greedy
`+` backtracks from the maximal domain-character run down to length 1,
each time requiring a literal `'.'` next. -/
def tryDomain (localPart afterAt : List Char) :
    Option (List Char × List Char) :=
  let maxDom := afterAt.takeWhile isDomainChar
  ((List.range' 1 maxDom.length).reverse).findSome? fun k =>
    let dom := maxDom.take k
    match afterAt.drop k with
    | '.' :: afterDot => tryTld localPart dom afterDot
    | _ => none

/-- Attempt the whole pattern at the head of `s`; `prev` is the character
before `s` in the scanned string (for the leading `\b`).  The local-part
`+` needs no backtracking: `'@'` is not a local-part character, so only
the maximal run can be followed by `'@'`. -/
def matchEmailAt (prev : Option Char) (s : List Char) :
    Option (List Char × List Char) :=
  match s with
  | [] => none
  | c :: _ =>
    if boundary prev (some c) then
      let localPart := s.takeWhile isLocalChar
      if localPart.isEmpty then none
      else
        match s.drop localPart.length with
        | '@' :: afterAt => tryDomain localPart afterAt
        | _ => none
    else none

/-- `re.findall` scan: try a match at each position left to right; on
success continue after the match (non-overlapping), otherwise advance one
character.  Fuel `s.length` suffices (≥ 1 character consumed per step). -/
def findEmailsAux : Nat → Option Char → List Char → List (List Char)
  | 0, _, _ => []
  | _, _, [] => []
  | fuel + 1, prev, c :: cs =>
    match matchEmailAt prev (c :: cs) with
    | some (m, rest) => m :: findEmailsAux fuel m.getLast? rest
    | none => findEmailsAux fuel (some c) cs

/-- All matches of the email pattern in `content`, in order. -/
def find_emails (content : String) : List String :=
  (findEmailsAux content.toList.length none content.toList).map fun l => ⟨l⟩

/-! ## The classifier (`GitScan.is_personal_email`) -/

/-- The static allow-list `corporate_domains` of `is_personal_email`,
transcribed verbatim (it actually lists free/personal providers). -/
def corporateDomains : List String :=
  ["gmail.com", "googlemail.com", "outlook.com", "hotmail.com", "live.com", "msn.com", "yahoo.com",
   "ymail.com", "rocketmail.com", "icloud.com", "me.com", "mac.com", "protonmail.com", "proton.me",
   "pm.me", "protonmail.ch", "protonmail.at", "tutanota.com", "tuta.com", "tuta.io", "tutanota.de",
   "keinspam.de", "tutamail.com", "gmx.net", "gmx.de", "gmx.at", "gmx.ch", "gmx.us", "mail.gmx.net",
   "web.de", "freenet.de", "t-online.de", "arcor.de", "1und1.de", "unitybox.de", "unitymail.de",
   "ionos.de", "ionos.com", "strato.de", "posteo.de", "mailbox.org", "posteo.net", "posteo.ch",
   "posteo.eu", "zoho.com", "zoho.eu", "zohomail.com", "fastmail.com", "fastmail.fm", "fastmail.net",
   "fastmail.org", "runbox.com", "runbox.no", "disroot.org", "autistici.org", "riseup.net",
   "systemli.org", "cock.li", "airmail.cc", "hey.com", "skiff.com", "skiff.org", "migadu.com",
   "mxroute.com", "mail.com", "email.com", "inbox.com", "europe.com", "usa.com", "yandex.com",
   "yandex.ru", "yandex.by", "yandex.kz", "yandex.ua", "mail.ru", "bk.ru", "inbox.ru", "list.ru",
   "vipmail.ru", "rambler.ru", "seznam.cz", "email.cz", "centrum.cz", "volny.cz", "wp.pl",
   "onet.pl", "poczta.onet.pl", "interia.pl", "poczta.fm", "op.pl", "orange.fr", "free.fr",
   "laposte.net", "sfr.fr", "bouyguestelecom.fr", "neuf.fr", "wanadoo.fr", "libero.it", "alice.it",
   "virgilio.it", "tim.it", "tiscali.it", "gmx.fr", "mail.fr", "aol.com", "aol.de", "aol.fr",
   "aol.co.uk", "btinternet.com", "btopenworld.com", "ntlworld.com", "blueyonder.co.uk",
   "talktalk.net", "sky.com", "virginmedia.com", "comcast.net", "verizon.net", "att.net",
   "sbcglobal.net", "bellsouth.net", "cox.net", "charter.net", "earthlink.net", "qq.com",
   "163.com", "126.com", "sina.com", "sohu.com", "naver.com", "daum.net", "hanmail.net",
   "nate.com", "hotmail.co.uk", "hotmail.de", "hotmail.fr", "hotmail.it", "hotmail.es",
   "hotmail.be", "live.co.uk", "live.de", "live.fr", "live.it", "gmx.at", "aon.at", "chello.at",
   "magnet.at", "hispeed.ch", "bluewin.ch", "swissonline.ch", "sunrise.ch", "gmx.ch", "hotmail.ch",
   "swisscom.ch", "cablecom.ch", "green.ch", "solnet.ch", "uol.com.br", "bol.com.br", "ig.com.br",
   "terra.com.br", "r7.com", "zipmail.com.br", "globomail.com", "oi.com.br", "hotmail.com.br",
   "live.com.br", "outlook.com.br", "gmx.com", "gmx.co.uk", "gmx.es", "gmx.it", "gmx.fr",
   "gmx.pt", "gmx.us", "mail.com", "email.com", "e-mail.com", "usa.com", "europe.com", "asia.com",
   "africa.com", "inbox.com", "safe-mail.net", "hushmail.com", "keemail.me", "mail.ru", "list.ru",
   "bk.ru", "inbox.ru", "yandex.com", "ya.ru", "yandex.ru", "mail.yandex", "yandex.ua",
   "yandex.by", "yandex.kz", "rambler.ru", "lenta.ru", "autorambler.ru", "myrambler.ru", "ro.ru",
   "r0.ru", "pochta.ru", "hotbox.ru", "nm.ru", "mail15.com", "mail.ru", "go.ru", "ok.ru",
   "inbox.lv", "mail.lv", "apollo.lv", "inbox.lt", "mail.ee", "hot.ee", "one.lt", "one.ee",
   "freemail.hu", "citromail.hu", "vipmail.hu", "azet.sk", "zoznam.sk", "poczta.pl", "poczta.fm",
   "interia.eu", "poczta.interia.pl", "tlen.pl", "autograf.pl", "vp.pl", "wp.pl", "o2.pl",
   "gazeta.pl", "abv.bg", "dir.bg", "mail.bg", "hotmail.gr", "yahoo.gr", "otenet.gr",
   "forthnet.gr", "vodafone.gr", "cosmote.gr", "wind.gr", "hotmail.es", "yahoo.es", "terra.es",
   "ono.com", "wanadoo.es", "telefonica.net", "jazztel.es", "ya.com", "eresmas.com", "hotmail.it",
   "yahoo.it", "tin.it", "katamail.com", "inwind.it", "supereva.it", "email.it", "hotmail.nl",
   "yahoo.nl", "planet.nl", "kpnmail.nl", "hetnet.nl", "freeler.nl", "home.nl", "xs4all.nl",
   "chello.nl", "quicknet.nl", "hotmail.be", "yahoo.be", "skynet.be", "telenet.be", "proximus.be",
   "scarlet.be", "base.be", "hotmail.se", "yahoo.se", "spray.se", "telia.com", "bredband.net",
   "comhem.se", "hotmail.no", "yahoo.no", "online.no", "start.no", "c2i.net", "hotmail.dk",
   "yahoo.dk", "jubii.dk", "sol.dk", "stofanet.dk", "hotmail.fi", "yahoo.fi", "luukku.com",
   "elisa.net", "kolumbus.fi", "suomi24.fi", "hotmail.pt", "yahoo.pt", "sapo.pt", "clix.pt",
   "netcabo.pt", "telepac.pt", "hotmail.com.ar", "yahoo.com.ar", "fibertel.com.ar",
   "speedy.com.ar", "ciudad.com.ar", "arnet.com.ar", "hotmail.com.mx", "yahoo.com.mx",
   "prodigy.net.mx", "live.com.mx", "hotmail.cl", "yahoo.cl", "terra.cl", "entel.cl", "vtr.net",
   "manquehue.net", "hotmail.com.co", "yahoo.com.co", "une.net.co", "etb.net.co",
   "hotmail.com.ve", "yahoo.com.ve", "cantv.net", "hotmail.com.br", "yahoo.com.br", "uol.com.br",
   "bol.com.br", "ig.com.br", "terra.com.br", "oi.com.br", "r7.com", "globomail.com",
   "zipmail.com.br", "hotmail.co.za", "yahoo.co.za", "mweb.co.za", "telkomsa.net",
   "vodamail.co.za", "hotmail.com.au", "yahoo.com.au", "bigpond.com", "bigpond.net.au",
   "optusnet.com.au", "iinet.net.au", "westnet.com.au", "hotmail.co.nz", "yahoo.co.nz",
   "xtra.co.nz", "clear.net.nz", "paradise.net.nz", "hotmail.co.in", "yahoo.co.in",
   "rediffmail.com", "indiatimes.com", "vsnl.net", "sify.com", "hotmail.co.jp", "yahoo.co.jp",
   "nifty.com", "ocn.ne.jp", "hotmail.co.kr", "yahoo.co.kr", "hanmail.net", "daum.net",
   "nate.com", "hotmail.com.tw", "yahoo.com.tw", "seed.net.tw", "hotmail.com.hk", "yahoo.com.hk",
   "netvigator.com", "pchome.com.tw", "hotmail.com.sg", "yahoo.com.sg", "singnet.com.sg",
   "pacific.net.sg", "hotmail.com.my", "yahoo.com.my", "tm.net.my", "streamyx.com",
   "hotmail.co.th", "yahoo.co.th", "cscoms.com", "hotmail.com.ph", "yahoo.com.ph", "pldt.net",
   "smart.com.ph", "hotmail.com.tr", "yahoo.com.tr", "superposta.com", "mynet.com",
   "hotmail.com.eg", "yahoo.com.eg", "link.net", "tedata.net", "hotmail.com.sa", "yahoo.com.sa",
   "nesma.net.sa", "hotmail.com.pk", "yahoo.com.pk", "cyber.net.pk", "hotmail.co.id",
   "yahoo.co.id", "centrin.net.id", "telkom.net", "hotmail.com.vn", "yahoo.com.vn", "vnpt.vn",
   "fpt.vn", "hotmail.ru", "yandex.ru", "mail.ru", "rambler.ru", "pochta.ru", "ngs.ru",
   "hotmail.ua", "meta.ua", "ukr.net", "bigmir.net", "i.ua", "hotmail.kz", "mail.kz",
   "yandex.kz", "hotmail.by", "tut.by", "mail.by", "yandex.by", "hotmail.az", "mail.az",
   "yandex.az", "hotmail.ge", "mail.ge", "yandex.ge", "hotmail.am", "mail.am", "yandex.am",
   "hotmail.tm", "mail.tm", "yandex.tm", "hotmail.kg", "mail.kg", "yandex.kg", "hotmail.tj",
   "mail.tj", "yandex.tj", "hotmail.uz", "mail.uz", "yandex.uz", "hotmail.md", "mail.md",
   "yandex.md", "hotmail.al", "mail.al", "yandex.al", "hotmail.ba", "mail.ba", "yandex.ba",
   "hotmail.hr", "mail.hr", "yandex.hr", "hotmail.si", "mail.si", "yandex.si", "hotmail.rs",
   "mail.rs", "yandex.rs", "hotmail.mk", "mail.mk", "yandex.mk", "hotmail.me", "mail.me",
   "yandex.me", "hotmail.lt", "mail.lt", "yandex.lt", "hotmail.lv", "mail.lv", "yandex.lv",
   "hotmail.ee", "mail.ee", "yandex.ee", "hotmail.is", "mail.is", "yandex.is", "hotmail.gr",
   "mail.gr", "yandex.gr", "hotmail.ro", "mail.ro", "yandex.ro", "hotmail.bg", "mail.bg",
   "yandex.bg", "hotmail.sk", "mail.sk", "yandex.sk", "hotmail.cz", "mail.cz", "yandex.cz",
   "hotmail.hu", "mail.hu", "yandex.hu", "hotmail.pl", "mail.pl", "yandex.pl", "hotmail.at",
   "mail.at", "yandex.at", "hotmail.ch", "mail.ch", "yandex.ch", "hotmail.de", "mail.de",
   "yandex.de", "hotmail.fr", "mail.fr", "yandex.fr", "hotmail.it", "mail.it", "yandex.it",
   "hotmail.es", "mail.es", "yandex.es", "hotmail.pt", "mail.pt", "yandex.pt", "hotmail.nl",
   "mail.nl", "yandex.nl", "hotmail.be", "mail.be", "yandex.be", "hotmail.se", "mail.se",
   "yandex.se", "hotmail.no", "mail.no", "yandex.no", "hotmail.dk", "mail.dk", "yandex.dk",
   "hotmail.fi", "mail.fi", "yandex.fi", "hotmail.is", "mail.is", "yandex.is", "hotmail.ie",
   "mail.ie", "yandex.ie", "hotmail.co.uk", "mail.co.uk", "yandex.co.uk", "hotmail.com.au",
   "mail.com.au", "yandex.com.au", "hotmail.co.nz", "mail.co.nz", "yandex.co.nz",
   "hotmail.co.za", "mail.co.za", "yandex.co.za", "hotmail.com", "mail.com", "yandex.com"]

/-- `GitScan.is_personal_email`:
`domain = email.split('@')[-1].lower(); return domain in corporate_domains`. -/
def is_personal_email (email : String) : Bool :=
  corporateDomains.contains ⟨lower_string (py_last (splitOnChar '@' email.toList))⟩

/-- `is_personal_email` with Python's only possible exception point
(`[-1]` on an empty list) made explicit; it never fires because `split`
always returns a non-empty list. -/
def is_personal_email_checked (email : String) : Except String Bool :=
  match py_last_checked (splitOnChar '@' email.toList) with
  | .error e => .error e
  | .ok d => .ok (corporateDomains.contains ⟨lower_string d⟩)

/-- Spec-side definition (§8 of the spec / claim C1): the substring of `E`
after the *last* `'@'`. -/
def after_last_at (l : List Char) : List Char :=
  (l.reverse.takeWhile fun c => c ≠ '@').reverse

/-! ## Data model

Parsed JSON records, with exactly the fields the source reads.  A JSON
field that may be `null` / absent and is read with `.get` is an `Option`.
Profile fields that are only echoed by `print` (name, company, location,
blog, bio, counters, timestamps) carry no collected data and are elided. -/

/-- One element of the repository-listing response (fields read by
`scan_single_repo`). -/
structure Repo where
  name : String
  full_name : String
  description : Option String
  language : Option String
  stargazers_count : Nat
  forks_count : Nat
  watchers_count : Nat
  size : Nat
  created_at : String
  updated_at : String
  pushed_at : String
  html_url : String
  clone_url : String
deriving DecidableEq

/-- The `repo_info` dict built by `scan_single_repo` (absent description /
language default to `'N/A'` via `.get`). -/
structure RepoInfo where
  name : String
  full_name : String
  description : String
  language : String
  stars : Nat
  forks : Nat
  watchers : Nat
  size : Nat
  created : String
  updated : String
  pushed : String
  url : String
  clone_url : String
deriving DecidableEq

/-- The `repo_info` construction in `scan_single_repo`. -/
def build_repo_info (repo : Repo) : RepoInfo :=
  { name := repo.name
    full_name := repo.full_name
    description := repo.description.getD "N/A"
    language := repo.language.getD "N/A"
    stars := repo.stargazers_count
    forks := repo.forks_count
    watchers := repo.watchers_count
    size := repo.size
    created := repo.created_at
    updated := repo.updated_at
    pushed := repo.pushed_at
    url := repo.html_url
    clone_url := repo.clone_url }

/-- One commit of the commit-listing response, flattening the
`commit.commit.author.email` / `commit.commit.committer.email` chains of
`.get` calls (`none` = any link absent or `null`). -/
structure Commit where
  author_email : Option String
  committer_email : Option String
deriving DecidableEq

/-- One hit of the code-search response (`item['html_url']`). -/
structure SearchItem where
  html_url : String
deriving DecidableEq

/-- The code-search response body (`search_data.get('items', [])`). -/
structure SearchData where
  items : List SearchItem
deriving DecidableEq

/-- The profile response (`user_data`); only `login` (logged) and `email`
(stored into the aggregate) flow anywhere. -/
structure UserData where
  login : String
  email : Option String
deriving DecidableEq

/-- One element of the public-events response. `repo` is
`event['repo']['name']` when the `repo` key is present. -/
structure RawEvent where
  etype : String
  repo : Option String
  created_at : String
deriving DecidableEq

/-- The event dict appended by `get_user_events`. -/
structure EventInfo where
  etype : String
  repo : String
  created_at : String
deriving DecidableEq

/-- One element of the organizations response. -/
structure Org where
  login : String
  description : Option String
deriving DecidableEq

/-- The `org_info` dict appended by `get_user_organizations`. -/
structure OrgInfo where
  name : String
  description : String
deriving DecidableEq

/-- One element of the gists response. -/
structure Gist where
  id : String
  description : Option String
  files : List String
  created_at : String
deriving DecidableEq

/-- The `gist_info` dict appended by `get_user_gists`. -/
structure GistInfo where
  id : String
  description : String
  files : List String
  created_at : String
deriving DecidableEq

/-- `self.found_data`: the shared aggregate store. -/
structure FoundData where
  emails : Finset String
  repos : List RepoInfo
  organizations : List OrgInfo
  events : List EventInfo
  gists : List GistInfo
  user_info : Option UserData
deriving DecidableEq

/-- `found_data` as initialised in `__init__`. -/
def initFoundData : FoundData :=
  { emails := ∅, repos := [], organizations := [], events := [],
    gists := [], user_info := none }

/-! ## Observable actions -/

/-- The collections of `found_data` (for tagging mutations). -/
inductive StoreField where
  | emails | repos | organizations | events | gists | user_info
deriving DecidableEq

/-- One observable action of the program.  `mutate f locked` is a write to
collection `f` of the aggregate store, with `locked = true` exactly when
the Python statement sits inside a `with self.lock:` block.  `sleep ms`
is `time.sleep` in milliseconds.  `submit` / `complete` are the
submission of a repository-scan task to the pool and the processing of
its finished future by the `as_completed` loop. -/
inductive Act where
  | request (url : String)
  | sleep (ms : Nat)
  | mutate (f : StoreField) (locked : Bool)
  | submit (repoName : String)
  | complete (repoName : String)
  | logInfo (msg : String)
  | logWarning (msg : String)
  | logError (msg : String)
  | logSuccess (msg : String)
deriving DecidableEq

/-- Outcome of one `requests.get`: parsed 200 body, non-200 status, or a
raised exception (timeout, connection error, ...). -/
inductive FetchResult (α : Type) where
  | ok (body : α)
  | httpStatus (code : Nat)
  | exn (msg : String)
deriving DecidableEq

/-! ## URLs (the f-strings of the source) -/

def repos_url (username : String) (page : Nat) : String :=
  "https://api.github.com/users/" ++ username ++ "/repos?page=" ++
    toString page ++ "&per_page=100"

def commits_url (username repo_name : String) : String :=
  "https://api.github.com/repos/" ++ username ++ "/" ++ repo_name ++ "/commits"

def search_url (username repo_name : String) : String :=
  "https://api.github.com/search/code?q=user:" ++ username ++ "+repo:" ++
    username ++ "/" ++ repo_name ++ "+%22@%22"

def user_url (username : String) : String :=
  "https://api.github.com/users/" ++ username

def events_url (username : String) : String :=
  "https://api.github.com/users/" ++ username ++ "/events/public"

def orgs_url (username : String) : String :=
  "https://api.github.com/users/" ++ username ++ "/orgs"

def gists_url (username : String) : String :=
  "https://api.github.com/users/" ++ username ++ "/gists"

/-! ## `get_all_repos`: paginated repository listing -/

/-- One pagination response: the oracle for the `while True` loop. -/
abbrev PageResult := FetchResult (List Repo)

/-- The `while True` loop of `get_all_repos`, consuming one oracle entry
per request.  Result `none` means the loop would issue a further request
beyond the supplied oracle (e.g. an unbounded 403 retry); theorems only
consider oracles the loop settles within.  A 403 sleeps 60 s and retries
the *same* page; any other non-200, or an exception, breaks. -/
def repos_loop (username : String) :
    List PageResult → List Repo → Nat → Option (List Repo) × List Act
  | [], _acc, _page => (none, [])
  | r :: rest, acc, page =>
    let url := repos_url username page
    match r with
    | .ok page_repos =>
      if page_repos.isEmpty then (some acc, [.request url])
      else
        let acc' := acc ++ page_repos
        let evs : List Act :=
          [.request url,
           .logInfo ("Page " ++ toString page ++ ": Found " ++
             toString page_repos.length ++ " repositories")]
        if page_repos.length < 100 then (some acc', evs)
        else
          ((repos_loop username rest acc' (page + 1)).1,
           evs ++ [.sleep 500] ++ (repos_loop username rest acc' (page + 1)).2)
    | .httpStatus code =>
      if code = 403 then
        ((repos_loop username rest acc page).1,
         [.request url,
          .logError "Rate limit exceeded. Waiting 60 seconds...",
          .sleep 60000] ++ (repos_loop username rest acc page).2)
      else
        (some acc,
         [.request url,
          .logError ("Error retrieving page " ++ toString page ++ ": " ++
            toString code)])
    | .exn msg =>
      (some acc,
       [.request url,
        .logError ("Exception on page " ++ toString page ++ ": " ++ msg)])

/-- `GitScan.get_all_repos`. -/
def get_all_repos (username : String) (responses : List PageResult) :
    Option (List Repo) × List Act :=
  let res := (repos_loop username responses [] 1).1
  let evs := Act.logInfo ("Scanning all repositories for: " ++ username)
    :: (repos_loop username responses [] 1).2
  match res with
  | some repos =>
    (some repos,
     evs ++ [.logSuccess ("Total repositories found: " ++ toString repos.length)])
  | none => (none, evs)

/-! ## Repository Miner: `scan_repo_commits` and `scan_repo_code` -/

/-- One `if candidate_email and self.is_personal_email(candidate_email)`
guard of the commit loop: add the email when truthy (non-`None`,
non-empty) and classified personal. -/
def add_email (s : Finset String) (o : Option String) : Finset String :=
  match o with
  | none => s
  | some e => if e ≠ "" ∧ is_personal_email e = true then insert e s else s

/-- The `for commit in commits[:100]` loop body (author first, then
committer, as in the source). -/
def commits_fold : Finset String → List Commit → Finset String
  | s, [] => s
  | s, c :: cs => commits_fold (add_email (add_email s c.author_email) c.committer_email) cs

/-- `GitScan.scan_repo_commits`: on a 200 response, classify the author
and committer emails of the first 100 commits; any non-200 yields the
empty set silently; an exception yields the empty set with a logged
error.  Never raises past its boundary. -/
def scan_repo_commits (username repo_name : String)
    (resp : FetchResult (List Commit)) : Finset String × List Act :=
  let evs0 : List Act := [.request (commits_url username repo_name)]
  match resp with
  | .ok commits => (commits_fold ∅ (commits.take 100), evs0)
  | .httpStatus _ => (∅, evs0)
  | .exn msg =>
    (∅, evs0 ++ [.logError ("Error scanning commits in " ++ repo_name ++ ": " ++ msg)])

/-- The raw-content URL rewrite of `scan_repo_code`:
`file_url.replace('github.com', 'raw.githubusercontent.com').replace('/blob/', '/')`. -/
def raw_url_of (file_url : String) : String :=
  pyReplace (pyReplace file_url "github.com" "raw.githubusercontent.com") "/blob/" "/"

/-- The inner `for email in found_emails` loop: keep the personal ones. -/
def add_found (s : Finset String) (found : List String) : Finset String :=
  found.foldl (fun acc e => if is_personal_email e = true then insert e acc else acc) s

/-- The `for item in search_data.get('items', [])[:20]` loop.  Each hit's
raw URL is fetched through the oracle `rf`; a non-200 body is skipped and
an exception is swallowed by the inner `try` (`continue`), in both cases
contributing nothing. -/
def code_items_fold (rf : String → FetchResult String) :
    Finset String → List SearchItem → Finset String × List Act
  | s, [] => (s, [])
  | s, item :: rest =>
    let raw := raw_url_of item.html_url
    let s' :=
      match rf raw with
      | .ok content => add_found s (find_emails content)
      | _ => s
    ((code_items_fold rf s' rest).1, .request raw :: (code_items_fold rf s' rest).2)

/-- `GitScan.scan_repo_code`.  Never raises past its boundary. -/
def scan_repo_code (username repo_name : String)
    (resp : FetchResult SearchData) (rf : String → FetchResult String) :
    Finset String × List Act :=
  let evs0 : List Act := [.request (search_url username repo_name)]
  match resp with
  | .ok sd =>
    ((code_items_fold rf ∅ (sd.items.take 20)).1,
     evs0 ++ (code_items_fold rf ∅ (sd.items.take 20)).2)
  | .httpStatus _ => (∅, evs0)
  | .exn msg =>
    (∅, evs0 ++ [.logError ("Error scanning code in " ++ repo_name ++ ": " ++ msg)])

/-- The emails one repository's mining contributes
(`commits_emails.union(code_emails)` in `scan_single_repo`). -/
def task_emails (username : String) (repo : Repo)
    (cr : FetchResult (List Commit)) (sr : FetchResult SearchData)
    (rf : String → FetchResult String) : Finset String :=
  (scan_repo_commits username repo.name cr).1 ∪ (scan_repo_code username repo.name sr rf).1

/-- `GitScan.scan_single_repo`: the unit of work submitted to the pool.
Appends the repository record and merges the mined emails, both inside
`with self.lock:` (the only lock-guarded mutations in the program);
returns `len(all_emails)`. -/
def scan_single_repo (username : String) (repo : Repo) (index total : Nat)
    (cr : FetchResult (List Commit)) (sr : FetchResult SearchData)
    (rf : String → FetchResult String) (st : FoundData) :
    Nat × FoundData × List Act :=
  let st1 := { st with repos := st.repos ++ [build_repo_info repo] }
  let all_emails :=
    (scan_repo_commits username repo.name cr).1 ∪ (scan_repo_code username repo.name sr rf).1
  let st2 := { st1 with emails := st1.emails ∪ all_emails }
  (all_emails.card, st2,
   [.logInfo ("[" ++ toString index ++ "/" ++ toString total ++ "] Scanning: " ++ repo.name),
    .mutate .repos true]
     ++ (scan_repo_commits username repo.name cr).2
     ++ (scan_repo_code username repo.name sr rf).2
     ++ [.mutate .emails true])

/-! ## Scan Orchestrator: `scan_repositories` -/

/-- Behaviour oracle for one submitted unit of work: either a normal run
of `scan_single_repo` over the given sub-scan oracles, or an unexpected
exception raised inside the task (surfacing from `future.result()`);
`raises` models the exception firing at task entry, before any store
mutation. -/
inductive TaskRun where
  | normal (cr : FetchResult (List Commit)) (sr : FetchResult SearchData)
      (rf : String → FetchResult String)
  | raises (msg : String)

/-- One iteration of the `for future in as_completed(...)` loop,
processing the finished task of index `i` (0-based; the source displays
`i+1`).  Accumulator: (total_emails_found, completed_repos, store,
actions).  A normal result adds its count and logs progress; an exception
from `future.result()` is caught and logged — the pool and the loop
continue. -/
def pool_step (username : String) (tasks : List (Repo × TaskRun)) (total : Nat)
    (acc : Nat × Nat × FoundData × List Act) (i : Nat) :
    Nat × Nat × FoundData × List Act :=
  let (tot, comp, st, evs) := acc
  match tasks[i]? with
  | none => acc
  | some (repo, .raises msg) =>
    (tot, comp, st,
     evs ++ [.complete repo.name, .logError ("Repository scan failed: " ++ msg)])
  | some (repo, .normal cr sr rf) =>
    (tot + (scan_single_repo username repo (i + 1) total cr sr rf st).1, comp + 1,
     (scan_single_repo username repo (i + 1) total cr sr rf st).2.1,
     evs ++ (scan_single_repo username repo (i + 1) total cr sr rf st).2.2 ++
       [.complete repo.name,
        .logInfo ("Progress: " ++ toString (comp + 1) ++ "/" ++ toString total ++
          " repositories completed")])

/-- `GitScan.scan_repositories`: submit one task per repository, then
process the futures in completion order `order` (a permutation of the
task indices — `as_completed` yields them in an arbitrary order).  The
lock-atomic store mutations of the concurrent tasks are linearised in
that same order.  Returns `total_emails_found`. -/
def scan_repositories (username : String) (threads : Nat)
    (tasks : List (Repo × TaskRun)) (order : List Nat) (st : FoundData) :
    Nat × FoundData × List Act :=
  let total := tasks.length
  let init_evs : List Act :=
    Act.logInfo ("Analyzing " ++ toString total ++ " repositories with " ++
      toString threads ++ " threads...")
      :: tasks.map fun t => Act.submit t.1.name
  let final := order.foldl (pool_step username tasks total) (0, 0, st, init_evs)
  (final.1, final.2.2.1,
   final.2.2.2 ++ [.logSuccess ("Repository scanning completed. Found " ++
     toString final.1 ++ " emails total")])

/-! ## Account-level fetches -/

/-- `GitScan.get_user_info`.  On 200 it stores the whole profile and, when
the public email field is truthy, adds it to the email set — both without
taking the lock. -/
def get_user_info (username : String) (resp : FetchResult UserData)
    (st : FoundData) : Option UserData × FoundData × List Act :=
  let evs0 : List Act :=
    [.logInfo "Retrieving user information...", .request (user_url username)]
  match resp with
  | .ok ud =>
    let st1 := { st with user_info := some ud }
    let evs1 := evs0 ++ [Act.mutate .user_info false,
      Act.logSuccess ("User found: " ++ ud.login)]
    match ud.email with
    | some e =>
      if e = "" then (some ud, st1, evs1)
      else
        (some ud, { st1 with emails := insert e st1.emails },
         evs1 ++ [Act.mutate .emails false])
    | none => (some ud, st1, evs1)
  | .httpStatus code =>
    (none, st, evs0 ++ [.logError ("User not found: " ++ toString code)])
  | .exn msg =>
    (none, st, evs0 ++ [.logError ("Error getting user info: " ++ msg)])

/-- The event dict appended by `get_user_events`. -/
def event_info_of (e : RawEvent) : EventInfo :=
  { etype := e.etype, repo := e.repo.getD "N/A", created_at := e.created_at }

/-- `GitScan.get_user_events`: appends the first 50 events, one unlocked
mutation per append.  (The `event_types` tally is print-only.) -/
def get_user_events (username : String) (resp : FetchResult (List RawEvent))
    (st : FoundData) : List RawEvent × FoundData × List Act :=
  let evs0 : List Act :=
    [.logInfo "Analyzing recent activities...", .request (events_url username)]
  match resp with
  | .ok events =>
    let taken := events.take 50
    let st' := { st with events := st.events ++ taken.map event_info_of }
    (events, st',
     evs0 ++ [.logSuccess ("Found " ++ toString events.length ++ " public events")]
       ++ taken.map (fun _ => Act.mutate .events false)
       ++ [.logInfo "Event distribution:"])
  | .httpStatus code =>
    ([], st, evs0 ++ [.logError ("Failed to retrieve events: " ++ toString code)])
  | .exn msg =>
    ([], st, evs0 ++ [.logError ("Error getting events: " ++ msg)])

/-- The `org_info` construction of `get_user_organizations`. -/
def org_info_of (o : Org) : OrgInfo :=
  { name := o.login, description := o.description.getD "N/A" }

/-- `GitScan.get_user_organizations`: appends every organization, one
unlocked mutation per append. -/
def get_user_organizations (username : String) (resp : FetchResult (List Org))
    (st : FoundData) : List Org × FoundData × List Act :=
  let evs0 : List Act :=
    [.logInfo "Checking organizations...", .request (orgs_url username)]
  match resp with
  | .ok orgs =>
    let st' := { st with organizations := st.organizations ++ orgs.map org_info_of }
    (orgs, st',
     evs0 ++ [.logSuccess ("Found " ++ toString orgs.length ++ " organizations")]
       ++ orgs.map (fun _ => Act.mutate .organizations false))
  | .httpStatus _ =>
    ([], st, evs0 ++ [.logWarning "Failed to retrieve organization information"])
  | .exn msg =>
    ([], st, evs0 ++ [.logError ("Error getting organizations: " ++ msg)])

/-- The `gist_info` construction of `get_user_gists`. -/
def gist_info_of (g : Gist) : GistInfo :=
  { id := g.id, description := g.description.getD "N/A", files := g.files,
    created_at := g.created_at }

/-- `GitScan.get_user_gists`: appends the first 10 gists, one unlocked
mutation per append. -/
def get_user_gists (username : String) (resp : FetchResult (List Gist))
    (st : FoundData) : List Gist × FoundData × List Act :=
  let evs0 : List Act :=
    [.logInfo "Scanning gists...", .request (gists_url username)]
  match resp with
  | .ok gists =>
    let taken := gists.take 10
    let st' := { st with gists := st.gists ++ taken.map gist_info_of }
    (gists, st',
     evs0 ++ [.logSuccess ("Found " ++ toString gists.length ++ " gists")]
       ++ taken.map (fun _ => Act.mutate .gists false))
  | .httpStatus _ =>
    ([], st, evs0 ++ [.logWarning "Failed to retrieve gists"])
  | .exn msg =>
    ([], st, evs0 ++ [.logError ("Error getting gists: " ++ msg)])

/-! ## `run_scan` -/

/-- The `if all_repos:` guard plus `scan_repositories` call of
`run_scan` — skipped entirely when pagination discovered nothing. -/
def scan_phase (username : String) (threads : Nat) (all_repos : List Repo)
    (runOf : Repo → TaskRun) (order : List Nat) (st : FoundData) :
    FoundData × List Act :=
  if all_repos.isEmpty then (st, [])
  else
    ((scan_repositories username threads (all_repos.map fun r => (r, runOf r)) order st).2.1,
     (scan_repositories username threads (all_repos.map fun r => (r, runOf r)) order st).2.2)

/-- The four sequential account-level fetches of `run_scan` (source lines
466–469), on the orchestrating thread. -/
def account_phase (username : String) (profileResp : FetchResult UserData)
    (eventsResp : FetchResult (List RawEvent)) (orgsResp : FetchResult (List Org))
    (gistsResp : FetchResult (List Gist)) (st : FoundData) : FoundData × List Act :=
  let st2 := (get_user_info username profileResp st).2.1
  let e2 := (get_user_info username profileResp st).2.2
  let st3 := (get_user_events username eventsResp st2).2.1
  let e3 := (get_user_events username eventsResp st2).2.2
  let st4 := (get_user_organizations username orgsResp st3).2.1
  let e4 := (get_user_organizations username orgsResp st3).2.2
  let st5 := (get_user_gists username gistsResp st4).2.1
  let e5 := (get_user_gists username gistsResp st4).2.2
  (st5, e2 ++ e3 ++ e4 ++ e5)

/-- `GitScan.run_scan`: pagination, then (when repositories were found)
the worker-pool fan-out, then the four account-level fetches in sequence
on the orchestrating thread.  `runOf` supplies each discovered
repository's task behaviour and `order` the pool's completion order.
`none` when the pagination oracle is too short.  The banner, timing and
report rendering are presentation-only and not modelled. -/
def run_scan (username : String) (threads : Nat) (pages : List PageResult)
    (runOf : Repo → TaskRun) (order : List Nat)
    (profileResp : FetchResult UserData)
    (eventsResp : FetchResult (List RawEvent))
    (orgsResp : FetchResult (List Org))
    (gistsResp : FetchResult (List Gist)) (st : FoundData) :
    Option (FoundData × List Act) :=
  match get_all_repos username pages with
  | (none, _) => none
  | (some all_repos, pevs) =>
    some ((account_phase username profileResp eventsResp orgsResp gistsResp
            (scan_phase username threads all_repos runOf order st).1).1,
      pevs ++ (scan_phase username threads all_repos runOf order st).2 ++
        (account_phase username profileResp eventsResp orgsResp gistsResp
            (scan_phase username threads all_repos runOf order st).1).2)

/-! ## Action classifiers -/

def isSubmitAct : Act → Bool
  | .submit _ => true
  | _ => false

def isCompleteAct : Act → Bool
  | .complete _ => true
  | _ => false

def isSleepAct : Act → Bool
  | .sleep _ => true
  | _ => false

def isRequestAct : Act → Bool
  | .request _ => true
  | _ => false

def isLogErrorAct : Act → Bool
  | .logError _ => true
  | _ => false

/-- "Every store mutation in this action holds the lock." -/
def lockedOnly : Act → Bool
  | .mutate _ locked => locked
  | _ => true

/-- "Every store mutation in this action is without the lock." -/
def unlockedOnly : Act → Bool
  | .mutate _ locked => !locked
  | _ => true

/-! ## Concrete sample data (shared by witnesses) -/

/-- A minimal concrete repository record. -/
def sampleRepo : Repo :=
  { name := "proj", full_name := "octo/proj", description := none, language := none,
    stargazers_count := 0, forks_count := 0, watchers_count := 0, size := 0,
    created_at := "", updated_at := "", pushed_at := "",
    html_url := "https://github.com/octo/proj", clone_url := "https://github.com/octo/proj.git" }

/-- A second concrete repository record with a different name. -/
def sampleRepoB : Repo :=
  { name := "tools", full_name := "octo/tools", description := none, language := none,
    stargazers_count := 0, forks_count := 0, watchers_count := 0, size := 0,
    created_at := "", updated_at := "", pushed_at := "",
    html_url := "https://github.com/octo/tools", clone_url := "https://github.com/octo/tools.git" }

/-- A concrete full pagination page: 100 distinct repository records. -/
def page100 (k : Nat) : List Repo :=
  (List.range 100).map fun i => { sampleRepoB with name := "r" ++ toString (k * 100 + i) }

/-! ## Lemmas about `split('@')[-1]` -/

theorem splitOnChar_ne_nil (sep : Char) (l : List Char) : splitOnChar sep l ≠ [] := by
  induction l with
  | nil => simp [splitOnChar]
  | cons c cs ih =>
    simp only [splitOnChar]
    split
    · next heq => exact absurd heq ih
    · next p ps heq => split <;> simp

theorem splitOnChar_of_not_mem {sep : Char} {l : List Char} (h : sep ∉ l) :
    splitOnChar sep l = [l] := by
  induction l with
  | nil => rfl
  | cons c cs ih =>
    have hc : ¬ c = sep := fun e => h (e ▸ List.mem_cons_self c cs)
    have hcs : sep ∉ cs := fun m => h (List.mem_cons_of_mem _ m)
    simp [splitOnChar, ih hcs, hc]

theorem two_le_length_splitOnChar {sep : Char} {l : List Char} (h : sep ∈ l) :
    2 ≤ (splitOnChar sep l).length := by
  induction l with
  | nil => cases h
  | cons c cs ih =>
    simp only [splitOnChar]
    cases hs : splitOnChar sep cs with
    | nil => exact absurd hs (splitOnChar_ne_nil sep cs)
    | cons p ps =>
      by_cases hc : c = sep
      · simp [hc]
      · have hmem : sep ∈ cs := by
          rcases List.mem_cons.mp h with h1 | h2
          · exact absurd h1.symm hc
          · exact h2
        have := ih hmem
        rw [hs] at this
        simpa [hc] using this

theorem py_last_cons {x : List Char} {xs : List (List Char)} (h : xs ≠ []) :
    py_last (x :: xs) = py_last xs := by
  cases xs with
  | nil => exact absurd rfl h
  | cons y ys => rfl

theorem takeWhile_append_last {α : Type} {p : α → Bool} {a : List α} {x : α}
    (h : p x = false) : (a ++ [x]).takeWhile p = a.takeWhile p := by
  induction a with
  | nil => simp [List.takeWhile_cons, h]
  | cons y ys ih =>
    rw [List.cons_append, List.takeWhile_cons, List.takeWhile_cons]
    cases hy : p y
    · rfl
    · rw [ih]

theorem takeWhile_append_of_stop {α : Type} {p : α → Bool} {a b : List α}
    (h : ∃ y ∈ a, p y = false) : (a ++ b).takeWhile p = a.takeWhile p := by
  induction a with
  | nil => rcases h with ⟨y, hy, _⟩; cases hy
  | cons z zs ih =>
    rw [List.cons_append, List.takeWhile_cons, List.takeWhile_cons]
    cases hz : p z with
    | false => rfl
    | true =>
      rcases h with ⟨y, hy, hyp⟩
      rcases List.mem_cons.mp hy with rfl | hmem
      · rw [hz] at hyp; cases hyp
      · rw [ih ⟨y, hmem, hyp⟩]

theorem after_last_at_of_not_mem {l : List Char} (h : '@' ∉ l) :
    after_last_at l = l := by
  unfold after_last_at
  have hall : l.reverse.takeWhile (fun c => c ≠ '@') = l.reverse := by
    apply List.takeWhile_eq_self_iff.mpr
    intro x hx
    have hxl : x ∈ l := List.mem_reverse.mp hx
    have hne : x ≠ '@' := fun e => h (e ▸ hxl)
    simpa using hne
  rw [hall, List.reverse_reverse]

theorem after_last_at_cons_at {cs : List Char} :
    after_last_at ('@' :: cs) = after_last_at cs := by
  unfold after_last_at
  rw [List.reverse_cons, takeWhile_append_last (by simp)]

theorem after_last_at_cons_of_mem {c : Char} {cs : List Char} (h : '@' ∈ cs) :
    after_last_at (c :: cs) = after_last_at cs := by
  unfold after_last_at
  rw [List.reverse_cons, takeWhile_append_of_stop ⟨'@', List.mem_reverse.mpr h, by simp⟩]

/-- `split('@')[-1]` is exactly the substring after the last `'@'` (and
the whole string when there is none). -/
theorem py_last_splitOnChar (l : List Char) :
    py_last (splitOnChar '@' l) = after_last_at l := by
  induction l with
  | nil => rfl
  | cons c cs ih =>
    by_cases hc : c = '@'
    · subst hc
      simp only [splitOnChar]
      cases hs : splitOnChar '@' cs with
      | nil => exact absurd hs (splitOnChar_ne_nil '@' cs)
      | cons p ps =>
        show py_last (if '@' = '@' then [] :: p :: ps else ('@' :: p) :: ps) =
          after_last_at ('@' :: cs)
        rw [if_pos rfl]
        calc py_last ([] :: p :: ps) = py_last (p :: ps) := py_last_cons (by simp)
          _ = py_last (splitOnChar '@' cs) := by rw [hs]
          _ = after_last_at cs := ih
          _ = after_last_at ('@' :: cs) := after_last_at_cons_at.symm
    · simp only [splitOnChar]
      cases hs : splitOnChar '@' cs with
      | nil => exact absurd hs (splitOnChar_ne_nil '@' cs)
      | cons p ps =>
        show py_last (if c = '@' then [] :: p :: ps else (c :: p) :: ps) =
          after_last_at (c :: cs)
        rw [if_neg hc]
        cases ps with
        | nil =>
          have hnm : '@' ∉ cs := by
            intro hmem
            have h2 := two_le_length_splitOnChar hmem
            rw [hs] at h2
            simp at h2
          have hp : p = cs := by
            have he := splitOnChar_of_not_mem hnm
            rw [hs] at he
            simpa using he
          subst hp
          show py_last [c :: p] = after_last_at (c :: p)
          rw [after_last_at_of_not_mem (by
            intro hm
            rcases List.mem_cons.mp hm with e | hmem
            · exact hc e.symm
            · exact hnm hmem)]
          rfl
        | cons q qs =>
          have hmem : '@' ∈ cs := by
            by_contra hnm
            have he := splitOnChar_of_not_mem hnm
            rw [hs] at he
            simp at he
          calc py_last ((c :: p) :: q :: qs) = py_last (q :: qs) := py_last_cons (by simp)
            _ = py_last (p :: q :: qs) := (py_last_cons (by simp)).symm
            _ = py_last (splitOnChar '@' cs) := by rw [hs]
            _ = after_last_at cs := ih
            _ = after_last_at (c :: cs) := (after_last_at_cons_of_mem hmem).symm

/-- `is_personal_email` as a function of the lower-cased
substring-after-last-`'@'`, with no restriction on the input. -/
theorem is_personal_email_eq (E : String) :
    is_personal_email E =
      corporateDomains.contains ⟨lower_string (after_last_at E.toList)⟩ := by
  unfold is_personal_email
  rw [py_last_splitOnChar]

/-- The explicit-exception embedding never reaches the `IndexError` arm:
`split` always returns a non-empty list. -/
theorem is_personal_email_checked_eq (E : String) :
    is_personal_email_checked E = .ok (is_personal_email E) := by
  unfold is_personal_email_checked py_last_checked is_personal_email
  cases hs : splitOnChar '@' E.toList with
  | nil => exact absurd hs (splitOnChar_ne_nil '@' E.toList)
  | cons p ps => rfl

/-! ## Claim C1 -/

/-- **C1** (confirmed).  For every email string `E` containing an `'@'`,
`is_personal_email E` is true iff the substring after the last `'@'` of
`E`, lower-cased, is in the static allow-list `corporate_domains`; and
the case of the local part and of the domain does not affect the result
beyond this lower-casing (the result is a function of the lower-cased
after-last-`'@'` substring alone). -/
theorem C1_is_personal_email_allowlist :
    (∀ E : String, '@' ∈ E.toList →
      (is_personal_email E = true ↔
        corporateDomains.contains ⟨lower_string (after_last_at E.toList)⟩ = true))
    ∧ (∀ E₁ E₂ : String, '@' ∈ E₁.toList → '@' ∈ E₂.toList →
        lower_string (after_last_at E₁.toList) = lower_string (after_last_at E₂.toList) →
        is_personal_email E₁ = is_personal_email E₂) := by
  constructor
  · intro E _
    rw [is_personal_email_eq]
  · intro E₁ E₂ _ _ h
    rw [is_personal_email_eq, is_personal_email_eq, h]

set_option maxRecDepth 4000 in
/-- Witness for C1: `"John.Doe@GMAIL.com"` is classified personal, via the
theorem at a concrete input (its domain lower-cases to `"gmail.com"`,
which is in the allow-list). -/
theorem C1_is_personal_email_allowlist_witness :
    is_personal_email "John.Doe@GMAIL.com" = true := by
  exact (C1_is_personal_email_allowlist.1 "John.Doe@GMAIL.com" (by decide)).mpr (by decide)

/-! ## Claim C8 -/

set_option maxRecDepth 4000 in
/-- **C8 counterexample.**  The claim says a string with no `'@'` makes
`is_personal_email` raise.  It does not: Python's `split` returns a
one-element list and `[-1]` succeeds, so the whole input is looked up as
a domain.  `"gmail.com"` contains no `'@'` yet the call returns the
classification `True` (in the embedding with the `IndexError` arm made
explicit, the result is `.ok true`, not `.error`). -/
theorem C8_counterexample_no_at_returns :
    ('@' ∉ "gmail.com".toList) ∧
      is_personal_email_checked "gmail.com" = .ok true := by
  exact ⟨by decide, rfl⟩

/-- **C8** (corrected).  For every input string containing no `'@'`,
`is_personal_email` does *not* raise: `split('@')` yields the whole
string as its only segment, so the function returns the membership of
the entire lower-cased input in the allow-list. -/
theorem C8_no_at_classifies_whole_string (s : String) (h : '@' ∉ s.toList) :
    is_personal_email_checked s = .ok (corporateDomains.contains ⟨lower_string s.toList⟩) := by
  rw [is_personal_email_checked_eq, is_personal_email_eq, after_last_at_of_not_mem h]

set_option maxRecDepth 4000 in
/-- Witness for C8: the `'@'`-free input `"gitscan"` yields the
classification `.ok false` (no exception). -/
theorem C8_no_at_classifies_whole_string_witness :
    is_personal_email_checked "gitscan" = .ok false := by
  have h := C8_no_at_classifies_whole_string "gitscan" (by decide)
  rw [h]
  exact congrArg Except.ok (by decide)

/-! ## Lemmas about the Repository Miner -/

set_option maxRecDepth 4000 in
theorem is_personal_email_empty : is_personal_email "" = false := by decide

theorem mem_add_email {s : Finset String} {o : Option String} {e : String} :
    e ∈ add_email s o ↔
      e ∈ s ∨ (o = some e ∧ e ≠ "" ∧ is_personal_email e = true) := by
  cases o with
  | none => simp [add_email]
  | some a =>
    by_cases h : a ≠ "" ∧ is_personal_email a = true
    · simp only [add_email, if_pos h, Finset.mem_insert]
      constructor
      · rintro (rfl | hs)
        · exact Or.inr ⟨rfl, h⟩
        · exact Or.inl hs
      · rintro (hs | ⟨he, _⟩)
        · exact Or.inr hs
        · injection he with he'
          subst he'
          exact Or.inl rfl
    · simp only [add_email, if_neg h]
      constructor
      · exact Or.inl
      · rintro (hs | ⟨he, h2⟩)
        · exact hs
        · injection he with he'
          subst he'
          exact absurd h2 h

theorem mem_commits_fold {l : List Commit} {s : Finset String} {e : String} :
    e ∈ commits_fold s l ↔
      e ∈ s ∨ ∃ c ∈ l,
        ((c.author_email = some e ∨ c.committer_email = some e) ∧
          e ≠ "" ∧ is_personal_email e = true) := by
  induction l generalizing s with
  | nil => simp [commits_fold]
  | cons c cs ih =>
    show e ∈ commits_fold (add_email (add_email s c.author_email) c.committer_email) cs ↔ _
    rw [ih]
    simp only [List.mem_cons, exists_eq_or_imp]
    rw [mem_add_email, mem_add_email]
    constructor
    · rintro (((hs | ⟨ha, hq⟩) | ⟨hb, hq⟩) | ⟨c', hc', hor, hq⟩)
      · exact Or.inl hs
      · exact Or.inr (Or.inl ⟨Or.inl ha, hq⟩)
      · exact Or.inr (Or.inl ⟨Or.inr hb, hq⟩)
      · exact Or.inr (Or.inr ⟨c', hc', hor, hq⟩)
    · rintro (hs | ⟨ha | hb, hq⟩ | ⟨c', hc', hor, hq⟩)
      · exact Or.inl (Or.inl (Or.inl hs))
      · exact Or.inl (Or.inl (Or.inr ⟨ha, hq⟩))
      · exact Or.inl (Or.inr ⟨hb, hq⟩)
      · exact Or.inr ⟨c', hc', hor, hq⟩

/-- The commit sub-scan on a 200 response collects exactly the
personal-classified author/committer emails of the first 100 commits. -/
theorem mem_scan_repo_commits_ok {u r : String} {commits : List Commit} {e : String} :
    e ∈ (scan_repo_commits u r (.ok commits)).1 ↔
      ∃ c ∈ commits.take 100,
        ((c.author_email = some e ∨ c.committer_email = some e) ∧
          is_personal_email e = true) := by
  show e ∈ commits_fold ∅ (commits.take 100) ↔ _
  rw [mem_commits_fold]
  simp only [Finset.not_mem_empty, false_or]
  constructor
  · rintro ⟨c, hc, hor, _, hp⟩
    exact ⟨c, hc, hor, hp⟩
  · rintro ⟨c, hc, hor, hp⟩
    refine ⟨c, hc, hor, ?_, hp⟩
    intro he
    rw [he, is_personal_email_empty] at hp
    cases hp

theorem mem_add_found {found : List String} {s : Finset String} {e : String} :
    e ∈ add_found s found ↔ e ∈ s ∨ (e ∈ found ∧ is_personal_email e = true) := by
  induction found generalizing s with
  | nil => simp [add_found]
  | cons f fs ih =>
    show e ∈ add_found (if is_personal_email f = true then insert f s else s) fs ↔ _
    rw [ih]
    by_cases hf : is_personal_email f = true
    · rw [if_pos hf]
      simp only [Finset.mem_insert, List.mem_cons]
      constructor
      · rintro ((rfl | hs) | hfs)
        · exact Or.inr ⟨Or.inl rfl, hf⟩
        · exact Or.inl hs
        · exact Or.inr ⟨Or.inr hfs.1, hfs.2⟩
      · rintro (hs | ⟨rfl | hmem, hp⟩)
        · exact Or.inl (Or.inr hs)
        · exact Or.inl (Or.inl rfl)
        · exact Or.inr ⟨hmem, hp⟩
    · rw [if_neg hf]
      simp only [List.mem_cons]
      constructor
      · rintro (hs | hfs)
        · exact Or.inl hs
        · exact Or.inr ⟨Or.inr hfs.1, hfs.2⟩
      · rintro (hs | ⟨rfl | hmem, hp⟩)
        · exact Or.inl hs
        · exact absurd hp hf
        · exact Or.inr ⟨hmem, hp⟩

theorem mem_code_items_fold {rf : String → FetchResult String} {items : List SearchItem}
    {s : Finset String} {e : String} :
    e ∈ (code_items_fold rf s items).1 ↔
      e ∈ s ∨ ∃ item ∈ items, ∃ content,
        rf (raw_url_of item.html_url) = .ok content ∧
          e ∈ find_emails content ∧ is_personal_email e = true := by
  induction items generalizing s with
  | nil => simp [code_items_fold]
  | cons it rest ih =>
    show e ∈ (code_items_fold rf
      (match rf (raw_url_of it.html_url) with
        | .ok content => add_found s (find_emails content)
        | _ => s) rest).1 ↔ _
    simp only [List.mem_cons, exists_eq_or_imp]
    cases hraw : rf (raw_url_of it.html_url) with
    | ok content =>
      rw [ih, mem_add_found]
      simp only [hraw, FetchResult.ok.injEq]
      constructor
      · rintro ((hs | ⟨hm, hp⟩) | hrest)
        · exact Or.inl hs
        · exact Or.inr (Or.inl ⟨content, rfl, hm, hp⟩)
        · exact Or.inr (Or.inr hrest)
      · rintro (hs | ⟨c, hc, hm, hp⟩ | hrest)
        · exact Or.inl (Or.inl hs)
        · subst hc
          exact Or.inl (Or.inr ⟨hm, hp⟩)
        · exact Or.inr hrest
    | httpStatus code =>
      rw [ih]
      simp [hraw]
    | exn m =>
      rw [ih]
      simp [hraw]

/-- The code sub-scan on a 200 search response collects exactly the
personal-classified regex matches of the successfully fetched raw bodies
of the first 20 hits. -/
theorem mem_scan_repo_code_ok {u r : String} {sd : SearchData}
    {rf : String → FetchResult String} {e : String} :
    e ∈ (scan_repo_code u r (.ok sd) rf).1 ↔
      ∃ item ∈ sd.items.take 20, ∃ content,
        rf (raw_url_of item.html_url) = .ok content ∧
          e ∈ find_emails content ∧ is_personal_email e = true := by
  show e ∈ (code_items_fold rf ∅ (sd.items.take 20)).1 ↔ _
  rw [mem_code_items_fold]
  simp

/-! ## Claim C9 -/

/-- **C9** (confirmed).  For one repository: the commit sub-scan inspects
only the author and committer email fields of the first 100 commits of
the fetched page, adding exactly those classified personal; and the code
sub-scan rewrites each of the first 20 hits' web URLs by the pure string
transform `raw_url_of` (replace `github.com` with
`raw.githubusercontent.com` and `/blob/` with `/`), extracts
email-shaped matches from each successfully fetched body with the fixed
regular expression (`find_emails`), and adds exactly those classified
personal. -/
theorem C9_miner_exact_collection :
    (∀ (u r : String) (commits : List Commit) (e : String),
      e ∈ (scan_repo_commits u r (.ok commits)).1 ↔
        ∃ c ∈ commits.take 100,
          ((c.author_email = some e ∨ c.committer_email = some e) ∧
            is_personal_email e = true))
    ∧ (∀ (u r : String) (sd : SearchData) (rf : String → FetchResult String) (e : String),
      e ∈ (scan_repo_code u r (.ok sd) rf).1 ↔
        ∃ item ∈ sd.items.take 20, ∃ content,
          rf (raw_url_of item.html_url) = .ok content ∧
            e ∈ find_emails content ∧ is_personal_email e = true) :=
  ⟨fun _ _ _ _ => mem_scan_repo_commits_ok, fun _ _ _ _ _ => mem_scan_repo_code_ok⟩

set_option maxRecDepth 4000 in
/-- Witness for C9 at a concrete input: one commit authored from
`alice@gmail.com` (personal) and committed from `bob@megacorp.io` (not in
the allow-list) yields exactly the author address. -/
theorem C9_miner_exact_collection_witness :
    "alice@gmail.com" ∈
      (scan_repo_commits "octo" "proj"
        (.ok [⟨some "alice@gmail.com", some "bob@megacorp.io"⟩])).1 ∧
    "bob@megacorp.io" ∉
      (scan_repo_commits "octo" "proj"
        (.ok [⟨some "alice@gmail.com", some "bob@megacorp.io"⟩])).1 := by
  constructor
  · exact (C9_miner_exact_collection.1 "octo" "proj" _ _).mpr
      ⟨⟨some "alice@gmail.com", some "bob@megacorp.io"⟩, by decide,
        Or.inl rfl, by decide⟩
  · intro hmem
    have h := (C9_miner_exact_collection.1 "octo" "proj" _ _).mp hmem
    rcases h with ⟨c, hc, hor, hp⟩
    have hc' : c = ⟨some "alice@gmail.com", some "bob@megacorp.io"⟩ := by
      simpa using hc
    subst hc'
    rcases hor with h1 | h2
    · exact absurd h1 (by decide)
    · revert hp
      decide

/-! ## Claim C7 -/

/-- **C7** (confirmed).  When the commit-list fetch of one repository
fails (a raised network exception), the commit sub-scan degrades to the
empty set, the code-search sub-scan still runs (its search request is in
the trace) and contributes its emails to the aggregate, and the miner
returns normally — in this embedding `scan_single_repo` is a total
function whose only exception channel is the orchestrator-level
`TaskRun.raises`, so no sub-scan failure escapes the miner's boundary. -/
theorem C7_commit_failure_still_code_scans (u : String) (repo : Repo) (i t : Nat)
    (msg : String) (sr : FetchResult SearchData) (rf : String → FetchResult String)
    (st : FoundData) :
    (scan_repo_commits u repo.name (.exn msg)).1 = ∅ ∧
    (scan_single_repo u repo i t (.exn msg) sr rf st).2.1.emails =
      st.emails ∪ (scan_repo_code u repo.name sr rf).1 ∧
    (scan_single_repo u repo i t (.exn msg) sr rf st).1 =
      (scan_repo_code u repo.name sr rf).1.card ∧
    Act.request (search_url u repo.name) ∈
      (scan_single_repo u repo i t (.exn msg) sr rf st).2.2 := by
  refine ⟨rfl, ?_, ?_, ?_⟩
  · show st.emails ∪ (∅ ∪ (scan_repo_code u repo.name sr rf).1) = _
    rw [Finset.empty_union]
  · show (∅ ∪ (scan_repo_code u repo.name sr rf).1).card = _
    rw [Finset.empty_union]
  · show Act.request (search_url u repo.name) ∈
      [Act.logInfo _, Act.mutate .repos true] ++ (scan_repo_commits u repo.name (.exn msg)).2
        ++ (scan_repo_code u repo.name sr rf).2 ++ [Act.mutate .emails true]
    have hreq : Act.request (search_url u repo.name) ∈ (scan_repo_code u repo.name sr rf).2 := by
      cases sr with
      | ok sd => exact List.mem_append_left _ (List.mem_singleton.mpr rfl)
      | httpStatus c => exact List.mem_singleton.mpr rfl
      | exn m => exact List.mem_append_left _ (List.mem_singleton.mpr rfl)
    simp only [List.append_assoc, List.mem_append]
    exact Or.inr (Or.inr (Or.inl hreq))

set_option maxRecDepth 8000 in
/-- Witness for C7 at a concrete input: commit fetch raises, yet the
repository's code scan contributes `carol@yahoo.com` to the aggregate. -/
theorem C7_commit_failure_still_code_scans_witness :
    "carol@yahoo.com" ∈
      (scan_single_repo "octo" sampleRepo 1 1 (.exn "ConnectionError")
        (.ok ⟨[⟨"https://github.com/octo/proj/blob/main/x.txt"⟩]⟩)
        (fun _ => .ok "mail carol@yahoo.com here") initFoundData).2.1.emails := by
  have h := C7_commit_failure_still_code_scans "octo" sampleRepo 1 1 "ConnectionError"
    (.ok ⟨[⟨"https://github.com/octo/proj/blob/main/x.txt"⟩]⟩)
    (fun _ => .ok "mail carol@yahoo.com here") initFoundData
  rw [h.2.1]
  decide

/-! ## Claim C10 -/

/-- **C10** (confirmed).  When the profile fetch succeeds and the profile
carries a non-empty public email, `get_user_info` adds that email to the
aggregate's set unconditionally — the resulting set is `insert e` of the
old set for *every* `e`, with `is_personal_email` never consulted — so
the final email set can contain an address whose domain is outside the
allow-list. -/
theorem C10_profile_email_added_unfiltered (u : String) (ud : UserData)
    (st : FoundData) (e : String) (he : ud.email = some e) (hne : e ≠ "") :
    (get_user_info u (.ok ud) st).2.1.emails = insert e st.emails ∧
    e ∈ (get_user_info u (.ok ud) st).2.1.emails := by
  have hstep : (get_user_info u (.ok ud) st).2.1.emails = insert e st.emails := by
    simp [get_user_info, he, hne]
  exact ⟨hstep, hstep ▸ Finset.mem_insert_self e st.emails⟩

set_option maxRecDepth 4000 in
/-- Witness for C10: the profile email `carol@megacorp.io` is at a domain
outside the allow-list (`is_personal_email` is false on it), yet it ends
up in the aggregate's email set. -/
theorem C10_profile_email_added_unfiltered_witness :
    is_personal_email "carol@megacorp.io" = false ∧
    "carol@megacorp.io" ∈
      (get_user_info "octo" (.ok ⟨"octo", some "carol@megacorp.io"⟩)
        initFoundData).2.1.emails := by
  refine ⟨by decide, ?_⟩
  exact (C10_profile_email_added_unfiltered "octo" ⟨"octo", some "carol@megacorp.io"⟩
    initFoundData "carol@megacorp.io" rfl (by decide)).2

/-! ## Lock-discipline lemmas -/

/-- "This action is not a store mutation at all." -/
def noMutateAct : Act → Bool
  | .mutate _ _ => false
  | _ => true

theorem lockedOnly_of_noMutate {a : Act} (h : noMutateAct a = true) :
    lockedOnly a = true := by
  cases a <;> first | rfl | exact absurd h (by simp [noMutateAct])

theorem all_lockedOnly_of_all_noMutate {l : List Act} (h : l.all noMutateAct = true) :
    l.all lockedOnly = true := by
  rw [List.all_eq_true] at h ⊢
  exact fun a ha => lockedOnly_of_noMutate (h a ha)

theorem scan_repo_commits_all_noMutate (u r : String) (resp : FetchResult (List Commit)) :
    ((scan_repo_commits u r resp).2).all noMutateAct = true := by
  cases resp <;> simp [scan_repo_commits, noMutateAct]

theorem code_items_fold_all_noMutate (rf : String → FetchResult String)
    (items : List SearchItem) (s : Finset String) :
    ((code_items_fold rf s items).2).all noMutateAct = true := by
  induction items generalizing s with
  | nil => rfl
  | cons it rest ih => simp [code_items_fold, noMutateAct, ih]

theorem scan_repo_code_all_noMutate (u r : String) (resp : FetchResult SearchData)
    (rf : String → FetchResult String) :
    ((scan_repo_code u r resp rf).2).all noMutateAct = true := by
  cases resp with
  | ok sd => simp [scan_repo_code, noMutateAct, code_items_fold_all_noMutate]
  | httpStatus c => simp [scan_repo_code, noMutateAct]
  | exn m => simp [scan_repo_code, noMutateAct]

theorem scan_single_repo_all_locked (u : String) (repo : Repo) (i t : Nat)
    (cr : FetchResult (List Commit)) (sr : FetchResult SearchData)
    (rf : String → FetchResult String) (st : FoundData) :
    ((scan_single_repo u repo i t cr sr rf st).2.2).all lockedOnly = true := by
  have hc := all_lockedOnly_of_all_noMutate (scan_repo_commits_all_noMutate u repo.name cr)
  have hd := all_lockedOnly_of_all_noMutate (scan_repo_code_all_noMutate u repo.name sr rf)
  simp [scan_single_repo, lockedOnly, hc, hd]

theorem get_user_info_all_unlocked (u : String) (resp : FetchResult UserData)
    (st : FoundData) :
    ((get_user_info u resp st).2.2).all unlockedOnly = true := by
  cases resp with
  | ok ud =>
    cases hem : ud.email with
    | some e =>
      by_cases he : e = "" <;> simp [get_user_info, hem, he, unlockedOnly]
    | none => simp [get_user_info, hem, unlockedOnly]
  | httpStatus c => simp [get_user_info, unlockedOnly]
  | exn m => simp [get_user_info, unlockedOnly]

theorem get_user_events_all_unlocked (u : String) (resp : FetchResult (List RawEvent))
    (st : FoundData) :
    ((get_user_events u resp st).2.2).all unlockedOnly = true := by
  cases resp <;> simp [get_user_events, unlockedOnly, List.all_map, Function.comp]

theorem get_user_organizations_all_unlocked (u : String) (resp : FetchResult (List Org))
    (st : FoundData) :
    ((get_user_organizations u resp st).2.2).all unlockedOnly = true := by
  cases resp <;> simp [get_user_organizations, unlockedOnly, List.all_map, Function.comp]

theorem get_user_gists_all_unlocked (u : String) (resp : FetchResult (List Gist))
    (st : FoundData) :
    ((get_user_gists u resp st).2.2).all unlockedOnly = true := by
  cases resp <;> simp [get_user_gists, unlockedOnly, List.all_map, Function.comp]

/-! ## Claim C2 -/

/-- **C2 counterexample.**  Not every mutation of the claimed collections
holds the lock: on a successful profile fetch with a non-empty public
email, `get_user_info` adds to the email set *without* taking the lock
(source lines 254-255, no `with self.lock:`), visible here as an
`Act.mutate .emails false` in its trace. -/
theorem C2_counterexample_unlocked_email_mutation :
    Act.mutate .emails false ∈
      (get_user_info "octo" (.ok ⟨"octo", some "x@y.z"⟩) initFoundData).2.2 := by
  decide

/-- **C2** (corrected).  The mutations performed by the repository-scan
worker tasks — the repository-record append and the email-set merge in
`scan_single_repo` — do hold the store's lock (every mutation in a
worker trace is locked); but the account-level fetches mutate the email
set, event list, organization list and gist list (and the profile
snapshot) *without* holding the lock: every mutation in their traces is
unlocked.  (They run sequentially on the orchestrating thread after the
pool has joined, so no data race results.) -/
theorem C2_lock_discipline :
    (∀ (u : String) (repo : Repo) (i t : Nat) (cr : FetchResult (List Commit))
        (sr : FetchResult SearchData) (rf : String → FetchResult String) (st : FoundData),
      ∀ a ∈ (scan_single_repo u repo i t cr sr rf st).2.2, lockedOnly a = true)
    ∧ (∀ (u : String) (resp : FetchResult UserData) (st : FoundData),
      ∀ a ∈ (get_user_info u resp st).2.2, unlockedOnly a = true)
    ∧ (∀ (u : String) (resp : FetchResult (List RawEvent)) (st : FoundData),
      ∀ a ∈ (get_user_events u resp st).2.2, unlockedOnly a = true)
    ∧ (∀ (u : String) (resp : FetchResult (List Org)) (st : FoundData),
      ∀ a ∈ (get_user_organizations u resp st).2.2, unlockedOnly a = true)
    ∧ (∀ (u : String) (resp : FetchResult (List Gist)) (st : FoundData),
      ∀ a ∈ (get_user_gists u resp st).2.2, unlockedOnly a = true) := by
  refine ⟨?_, ?_, ?_, ?_, ?_⟩
  · intro u repo i t cr sr rf st
    exact List.all_eq_true.mp (scan_single_repo_all_locked u repo i t cr sr rf st)
  · intro u resp st
    exact List.all_eq_true.mp (get_user_info_all_unlocked u resp st)
  · intro u resp st
    exact List.all_eq_true.mp (get_user_events_all_unlocked u resp st)
  · intro u resp st
    exact List.all_eq_true.mp (get_user_organizations_all_unlocked u resp st)
  · intro u resp st
    exact List.all_eq_true.mp (get_user_gists_all_unlocked u resp st)

/-- Witness for C2: the email-set merge of a concrete worker task carries
the lock, via the theorem at a concrete input. -/
theorem C2_lock_discipline_witness :
    lockedOnly (Act.mutate .emails true) = true := by
  refine C2_lock_discipline.1 "octo" sampleRepo 1 1 (.exn "e") (.exn "e")
    (fun _ => .exn "e") initFoundData (Act.mutate .emails true) ?_
  decide

/-! ## Claim C4 -/

/-- **C4 counterexample.**  The claim says *every* remote fetch sleeps and
retries on a rate-limited response.  The commit-listing fetch does not:
on HTTP 403 `scan_repo_commits` silently returns the empty set after its
single request — its whole trace is that one request, with no sleep and
no second request. -/
theorem C4_counterexample_commits_403_no_retry :
    scan_repo_commits "alice" "proj" (.httpStatus 403) =
      (∅, [Act.request (commits_url "alice" "proj")]) ∧
    Act.sleep 60000 ∉ (scan_repo_commits "alice" "proj" (.httpStatus 403)).2 := by
  exact ⟨rfl, by decide⟩

/-- **C4** (corrected).  Only repository pagination retries on rate limit,
and only on a status of exactly 403: it logs, sleeps 60 s, and
re-requests the same page with the accumulator intact.  Any other
non-200 status (including 429) aborts pagination with no sleep.  Every
other fetch — commit listing, code search, raw-file retrieval, profile,
events, organizations, gists — performs no sleep and no retry on a
403/429-class response: it degrades to empty results or a logged
error/warning after its single request. -/
theorem C4_rate_limit_retry_only_pagination :
    (∀ (u : String) (rest : List PageResult) (acc : List Repo) (page : Nat),
      repos_loop u (.httpStatus 403 :: rest) acc page =
        ((repos_loop u rest acc page).1,
         [.request (repos_url u page),
          .logError "Rate limit exceeded. Waiting 60 seconds...",
          .sleep 60000] ++ (repos_loop u rest acc page).2))
    ∧ (∀ (u : String) (rest : List PageResult) (acc : List Repo) (page c : Nat),
      c ≠ 403 →
      repos_loop u (.httpStatus c :: rest) acc page =
        (some acc,
         [.request (repos_url u page),
          .logError ("Error retrieving page " ++ toString page ++ ": " ++ toString c)]))
    ∧ (∀ (u r : String) (c : Nat),
      scan_repo_commits u r (.httpStatus c) = (∅, [.request (commits_url u r)]))
    ∧ (∀ (u r : String) (c : Nat) (rf : String → FetchResult String),
      scan_repo_code u r (.httpStatus c) rf = (∅, [.request (search_url u r)]))
    ∧ (∀ (rf : String → FetchResult String) (s : Finset String) (it : SearchItem) (c : Nat),
      rf (raw_url_of it.html_url) = .httpStatus c →
      code_items_fold rf s [it] = (s, [.request (raw_url_of it.html_url)]))
    ∧ (∀ (u : String) (c : Nat) (st : FoundData),
      get_user_info u (.httpStatus c) st =
        (none, st, [.logInfo "Retrieving user information...", .request (user_url u),
          .logError ("User not found: " ++ toString c)]))
    ∧ (∀ (u : String) (c : Nat) (st : FoundData),
      get_user_events u (.httpStatus c) st =
        ([], st, [.logInfo "Analyzing recent activities...", .request (events_url u),
          .logError ("Failed to retrieve events: " ++ toString c)]))
    ∧ (∀ (u : String) (c : Nat) (st : FoundData),
      get_user_organizations u (.httpStatus c) st =
        ([], st, [.logInfo "Checking organizations...", .request (orgs_url u),
          .logWarning "Failed to retrieve organization information"]))
    ∧ (∀ (u : String) (c : Nat) (st : FoundData),
      get_user_gists u (.httpStatus c) st =
        ([], st, [.logInfo "Scanning gists...", .request (gists_url u),
          .logWarning "Failed to retrieve gists"])) := by
  refine ⟨?_, ?_, ?_, ?_, ?_, ?_, ?_, ?_, ?_⟩
  · intro u rest acc page
    rfl
  · intro u rest acc page c hc
    simp [repos_loop, hc]
  · intro u r c
    rfl
  · intro u r c rf
    rfl
  · intro rf s it c h
    simp [code_items_fold, h]
  · intro u c st
    rfl
  · intro u c st
    rfl
  · intro u c st
    rfl
  · intro u c st
    rfl

/-- Witness for C4 at a concrete input: a 429 response on page 1 aborts
pagination immediately (no sleep, no retry), via the theorem. -/
theorem C4_rate_limit_retry_only_pagination_witness :
    repos_loop "octo" [.httpStatus 429] [] 1 =
      (some [],
       [Act.request (repos_url "octo" 1),
        Act.logError ("Error retrieving page " ++ toString 1 ++ ": " ++ toString 429)]) := by
  exact C4_rate_limit_retry_only_pagination.2.1 "octo" [] [] 1 429 (by decide)

/-! ## Claim C5 -/

/-- One-step unfolding of the pagination loop on a full page (100
entries): extend the accumulator and move to the next page. -/
theorem repos_loop_full_page_step (u : String) (p : List Repo)
    (rest : List PageResult) (acc : List Repo) (page : Nat)
    (hemp : ¬ p.isEmpty = true) (hnlt : ¬ p.length < 100) :
    (repos_loop u (.ok p :: rest) acc page).1 =
      (repos_loop u rest (acc ++ p) (page + 1)).1 := by
  rw [repos_loop]
  rw [if_neg hemp, if_neg hnlt]

/-- The pagination loop over a run of successful pages: every page before
the last has exactly the full page size 100, the last is short (or
empty), and the loop returns the concatenation onto the accumulator —
ignoring anything (`extra`) the oracle holds beyond the stopping page. -/
theorem repos_loop_pages (u : String) (P : List (List Repo)) :
    ∀ (extra : List PageResult) (acc : List Repo) (page : Nat),
      (∀ p ∈ P.dropLast, p.length = 100) →
      ∀ lp, P.getLast? = some lp → lp.length < 100 →
      (repos_loop u (P.map .ok ++ extra) acc page).1 = some (acc ++ P.flatten) := by
  induction P with
  | nil => intro _ _ _ _ lp hlast _; cases hlast
  | cons p P' ih =>
    intro extra acc page hdrop lp hlast hshort
    cases P' with
    | nil =>
      have hp : lp = p := by
        simpa using hlast.symm
      subst hp
      by_cases hemp : lp.isEmpty
      · have h0 : lp = [] := List.isEmpty_iff.mp hemp
        subst h0
        simp [repos_loop]
      · simp [repos_loop, hemp, hshort]
    | cons q Q =>
      have hp100 : p.length = 100 := hdrop p (by simp)
      have hemp : ¬ p.isEmpty = true := by
        rw [List.isEmpty_iff]
        intro h
        rw [h] at hp100
        simp at hp100
      have hnlt : ¬ p.length < 100 := by omega
      have hdrop' : ∀ r ∈ (q :: Q).dropLast, r.length = 100 := by
        intro r hr
        refine hdrop r ?_
        rcases Q with _ | ⟨w, W⟩
        · simp at hr
        · simpa using Or.inr hr
      have hlast' : (q :: Q).getLast? = some lp := by
        rw [← hlast, List.getLast?_cons_cons]
      have hrec := ih extra (acc ++ p) (page + 1) hdrop' lp hlast' hshort
      have hstep := repos_loop_full_page_step u p ((q :: Q).map .ok ++ extra) acc page hemp hnlt
      rw [List.map_cons, List.cons_append, hstep, hrec]
      simp [List.append_assoc]

/-- **C5** (confirmed).  (a) Pagination stops exactly at the first page
with fewer than 100 entries (or an empty page): for any run of
successful pages whose non-final pages are full and whose final page is
short, the result is precisely their concatenation — earlier pages
preserved, and any further responses the remote could have served are
never requested.  (b) When a 403 on page 2 is followed by a successful
retry, the final list is page 1 concatenated with the retried page 2,
with a 60-second sleep in between, and no duplicates (assuming the two
pages are duplicate-free and disjoint, as distinct listing pages are)
and no dropped entries. -/
theorem C5_pagination_stop_and_retry :
    (∀ (u : String) (P : List (List Repo)) (extra : List PageResult),
      (∀ p ∈ P.dropLast, p.length = 100) →
      ∀ lp, P.getLast? = some lp → lp.length < 100 →
      (get_all_repos u (P.map .ok ++ extra)).1 = some P.flatten)
    ∧ (∀ (u : String) (p1 p2 : List Repo),
      p1.length = 100 → p2.length < 100 →
      (get_all_repos u [.ok p1, .httpStatus 403, .ok p2]).1 = some (p1 ++ p2) ∧
      Act.sleep 60000 ∈ (get_all_repos u [.ok p1, .httpStatus 403, .ok p2]).2 ∧
      (p1.Nodup → p2.Nodup → p1.Disjoint p2 → (p1 ++ p2).Nodup)) := by
  constructor
  · intro u P extra hdrop lp hlast hshort
    have hloop := repos_loop_pages u P extra [] 1 hdrop lp hlast hshort
    unfold get_all_repos
    rw [hloop]
    simp
  · intro u p1 p2 hp1 hp2
    have hemp1 : ¬ p1.isEmpty = true := by
      rw [List.isEmpty_iff]
      intro h
      rw [h] at hp1
      simp at hp1
    have hnlt1 : ¬ p1.length < 100 := by omega
    have hstep := repos_loop_full_page_step u p1 [.httpStatus 403, .ok p2] [] 1 hemp1 hnlt1
    have hres : (repos_loop u [.ok p1, .httpStatus 403, .ok p2] [] 1).1 = some (p1 ++ p2) := by
      rw [hstep]
      by_cases hemp2 : p2.isEmpty
      · have h0 : p2 = [] := List.isEmpty_iff.mp hemp2
        subst h0
        simp [repos_loop]
      · simp [repos_loop, hemp2, hp2]
    have hsleep : Act.sleep 60000 ∈ (repos_loop u [.ok p1, .httpStatus 403, .ok p2] [] 1).2 := by
      rw [repos_loop]
      rw [if_neg hemp1, if_neg hnlt1]
      show Act.sleep 60000 ∈ _ ++ [Act.sleep 500] ++ _
      refine List.mem_append_right _ ?_
      rw [repos_loop]
      simp
    refine ⟨?_, ?_, ?_⟩
    · unfold get_all_repos
      rw [hres]
    · show Act.sleep 60000 ∈ (get_all_repos u [.ok p1, .httpStatus 403, .ok p2]).2
      unfold get_all_repos
      rw [hres]
      exact List.mem_append_left _ (List.mem_cons_of_mem _ hsleep)
    · intro h1 h2 hd
      exact List.nodup_append.mpr ⟨h1, h2, hd⟩

/-- Witness for C5 at concrete inputs: a full first page of 100 distinct
repositories and a short second page concatenate exactly. -/
theorem C5_pagination_stop_and_retry_witness :
    (get_all_repos "octo"
      [.ok (page100 0), .httpStatus 403, .ok [sampleRepo]]).1 =
      some (page100 0 ++ [sampleRepo]) := by
  exact (C5_pagination_stop_and_retry.2 "octo" (page100 0) [sampleRepo]
    (by simp [page100]) (by decide)).1

/-! ## Worker-pool bookkeeping lemmas -/

/-- "This action is neither a task submission nor a task completion." -/
def noPoolAct : Act → Bool
  | .submit _ => false
  | .complete _ => false
  | _ => true

theorem countP_complete_eq_zero_of_noPool {l : List Act} (h : l.all noPoolAct = true) :
    l.countP isCompleteAct = 0 := by
  rw [List.all_eq_true] at h
  rw [List.countP_eq_zero]
  intro a ha
  have := h a ha
  cases a <;> simp_all [noPoolAct, isCompleteAct]

theorem countP_submit_eq_zero_of_noPool {l : List Act} (h : l.all noPoolAct = true) :
    l.countP isSubmitAct = 0 := by
  rw [List.all_eq_true] at h
  rw [List.countP_eq_zero]
  intro a ha
  have := h a ha
  cases a <;> simp_all [noPoolAct, isSubmitAct]

theorem scan_repo_commits_all_noPool (u r : String) (resp : FetchResult (List Commit)) :
    ((scan_repo_commits u r resp).2).all noPoolAct = true := by
  cases resp <;> simp [scan_repo_commits, noPoolAct]

theorem code_items_fold_all_noPool (rf : String → FetchResult String)
    (items : List SearchItem) (s : Finset String) :
    ((code_items_fold rf s items).2).all noPoolAct = true := by
  induction items generalizing s with
  | nil => rfl
  | cons it rest ih => simp [code_items_fold, noPoolAct, ih]

theorem scan_repo_code_all_noPool (u r : String) (resp : FetchResult SearchData)
    (rf : String → FetchResult String) :
    ((scan_repo_code u r resp rf).2).all noPoolAct = true := by
  cases resp with
  | ok sd => simp [scan_repo_code, noPoolAct, code_items_fold_all_noPool]
  | httpStatus c => simp [scan_repo_code, noPoolAct]
  | exn m => simp [scan_repo_code, noPoolAct]

theorem scan_single_repo_all_noPool (u : String) (repo : Repo) (i t : Nat)
    (cr : FetchResult (List Commit)) (sr : FetchResult SearchData)
    (rf : String → FetchResult String) (st : FoundData) :
    ((scan_single_repo u repo i t cr sr rf st).2.2).all noPoolAct = true := by
  simp [scan_single_repo, noPoolAct, scan_repo_commits_all_noPool,
    scan_repo_code_all_noPool]

theorem repos_loop_all_noPool (u : String) :
    ∀ (responses : List PageResult) (acc : List Repo) (page : Nat),
      ((repos_loop u responses acc page).2).all noPoolAct = true := by
  intro responses
  induction responses with
  | nil => intro acc page; rfl
  | cons r rest ih =>
    intro acc page
    cases r with
    | ok p =>
      by_cases h1 : p.isEmpty
      · simp [repos_loop, h1, noPoolAct]
      · by_cases h2 : p.length < 100 <;> simp [repos_loop, h1, h2, noPoolAct, ih]
    | httpStatus c =>
      by_cases h : c = 403 <;> simp [repos_loop, h, noPoolAct, ih]
    | exn m => simp [repos_loop, noPoolAct]

theorem get_all_repos_all_noPool (u : String) (responses : List PageResult) :
    ((get_all_repos u responses).2).all noPoolAct = true := by
  cases h : (repos_loop u responses [] 1).1 <;>
    simp [get_all_repos, h, noPoolAct, repos_loop_all_noPool]

theorem get_user_info_all_noPool (u : String) (resp : FetchResult UserData)
    (st : FoundData) :
    ((get_user_info u resp st).2.2).all noPoolAct = true := by
  cases resp with
  | ok ud =>
    cases hem : ud.email with
    | some e =>
      by_cases he : e = "" <;> simp [get_user_info, hem, he, noPoolAct]
    | none => simp [get_user_info, hem, noPoolAct]
  | httpStatus c => simp [get_user_info, noPoolAct]
  | exn m => simp [get_user_info, noPoolAct]

theorem get_user_events_all_noPool (u : String) (resp : FetchResult (List RawEvent))
    (st : FoundData) :
    ((get_user_events u resp st).2.2).all noPoolAct = true := by
  cases resp <;> simp [get_user_events, noPoolAct, List.all_map, Function.comp]

theorem get_user_organizations_all_noPool (u : String) (resp : FetchResult (List Org))
    (st : FoundData) :
    ((get_user_organizations u resp st).2.2).all noPoolAct = true := by
  cases resp <;> simp [get_user_organizations, noPoolAct, List.all_map, Function.comp]

theorem get_user_gists_all_noPool (u : String) (resp : FetchResult (List Gist))
    (st : FoundData) :
    ((get_user_gists u resp st).2.2).all noPoolAct = true := by
  cases resp <;> simp [get_user_gists, noPoolAct, List.all_map, Function.comp]

theorem account_phase_all_noPool (u : String) (pr : FetchResult UserData)
    (er : FetchResult (List RawEvent)) (orr : FetchResult (List Org))
    (gr : FetchResult (List Gist)) (st : FoundData) :
    ((account_phase u pr er orr gr st).2).all noPoolAct = true := by
  simp [account_phase, List.all_append, get_user_info_all_noPool,
    get_user_events_all_noPool, get_user_organizations_all_noPool,
    get_user_gists_all_noPool]

/-- The email set after one task equals the old set united with that
task's mined emails. -/
theorem scan_single_repo_emails (u : String) (repo : Repo) (i t : Nat)
    (cr : FetchResult (List Commit)) (sr : FetchResult SearchData)
    (rf : String → FetchResult String) (st : FoundData) :
    (scan_single_repo u repo i t cr sr rf st).2.1.emails =
      st.emails ∪ task_emails u repo cr sr rf := rfl

theorem pool_step_none {u : String} {tasks : List (Repo × TaskRun)} {total : Nat}
    {i : Nat} (h : tasks[i]? = none) (tot comp : Nat) (st : FoundData) (evs : List Act) :
    pool_step u tasks total (tot, comp, st, evs) i = (tot, comp, st, evs) := by
  simp [pool_step, h]

theorem pool_step_raises {u : String} {tasks : List (Repo × TaskRun)} {total : Nat}
    {i : Nat} {repo : Repo} {msg : String}
    (h : tasks[i]? = some (repo, .raises msg)) (tot comp : Nat) (st : FoundData)
    (evs : List Act) :
    pool_step u tasks total (tot, comp, st, evs) i =
      (tot, comp, st,
       evs ++ [.complete repo.name, .logError ("Repository scan failed: " ++ msg)]) := by
  simp [pool_step, h]

theorem pool_step_normal {u : String} {tasks : List (Repo × TaskRun)} {total : Nat}
    {i : Nat} {repo : Repo} {cr : FetchResult (List Commit)} {sr : FetchResult SearchData}
    {rf : String → FetchResult String}
    (h : tasks[i]? = some (repo, .normal cr sr rf)) (tot comp : Nat) (st : FoundData)
    (evs : List Act) :
    pool_step u tasks total (tot, comp, st, evs) i =
      (tot + (scan_single_repo u repo (i + 1) total cr sr rf st).1, comp + 1,
       (scan_single_repo u repo (i + 1) total cr sr rf st).2.1,
       evs ++ (scan_single_repo u repo (i + 1) total cr sr rf st).2.2 ++
         [.complete repo.name,
          .logInfo ("Progress: " ++ toString (comp + 1) ++ "/" ++ toString total ++
            " repositories completed")]) := by
  simp [pool_step, h]

/-- Each processed future only appends to the action trace. -/
theorem pool_fold_events_extend (u : String) (tasks : List (Repo × TaskRun)) (total : Nat) :
    ∀ (order : List Nat) (tot comp : Nat) (st : FoundData) (evs : List Act),
      ∃ tail,
        (order.foldl (pool_step u tasks total) (tot, comp, st, evs)).2.2.2 = evs ++ tail := by
  intro order
  induction order with
  | nil => intro tot comp st evs; exact ⟨[], by simp⟩
  | cons i order' ih =>
    intro tot comp st evs
    rw [List.foldl_cons]
    cases h : tasks[i]? with
    | none =>
      rw [pool_step_none h]
      exact ih tot comp st evs
    | some tr =>
      obtain ⟨repo, run⟩ := tr
      cases run with
      | raises msg =>
        rw [pool_step_raises h]
        obtain ⟨t, ht⟩ := ih tot comp st
          (evs ++ [.complete repo.name, .logError ("Repository scan failed: " ++ msg)])
        exact ⟨[.complete repo.name, .logError ("Repository scan failed: " ++ msg)] ++ t,
          by rw [ht, List.append_assoc]⟩
      | normal cr sr rf =>
        rw [pool_step_normal h]
        obtain ⟨t, ht⟩ := ih (tot + (scan_single_repo u repo (i + 1) total cr sr rf st).1)
          (comp + 1) ((scan_single_repo u repo (i + 1) total cr sr rf st).2.1)
          (evs ++ (scan_single_repo u repo (i + 1) total cr sr rf st).2.2 ++
            [.complete repo.name,
             .logInfo ("Progress: " ++ toString (comp + 1) ++ "/" ++ toString total ++
               " repositories completed")])
        refine ⟨(scan_single_repo u repo (i + 1) total cr sr rf st).2.2 ++
          [.complete repo.name,
           .logInfo ("Progress: " ++ toString (comp + 1) ++ "/" ++ toString total ++
             " repositories completed")] ++ t, ?_⟩
        rw [ht]
        simp [List.append_assoc]

/-- Processing one finished future appends exactly one `complete` action
(valid indices), so the futures loop completes all `order.length` tasks. -/
theorem pool_fold_complete_count (u : String) (tasks : List (Repo × TaskRun)) (total : Nat) :
    ∀ (order : List Nat), (∀ i ∈ order, i < tasks.length) →
      ∀ (tot comp : Nat) (st : FoundData) (evs : List Act),
      ((order.foldl (pool_step u tasks total) (tot, comp, st, evs)).2.2.2).countP isCompleteAct
        = evs.countP isCompleteAct + order.length := by
  intro order
  induction order with
  | nil => intro _ tot comp st evs; simp
  | cons i order' ih =>
    intro hvalid tot comp st evs
    have hi : i < tasks.length := hvalid i (List.mem_cons_self i order')
    have hvalid' : ∀ j ∈ order', j < tasks.length :=
      fun j hj => hvalid j (List.mem_cons_of_mem i hj)
    rw [List.foldl_cons]
    cases h : tasks[i]? with
    | none =>
      rw [List.getElem?_eq_getElem hi] at h
      cases h
    | some tr =>
      obtain ⟨repo, run⟩ := tr
      cases run with
      | raises msg =>
        rw [pool_step_raises h, ih hvalid']
        simp [List.countP_append, List.countP_cons, isCompleteAct]
        omega
      | normal cr sr rf =>
        rw [pool_step_normal h, ih hvalid']
        have h0 := countP_complete_eq_zero_of_noPool
          (scan_single_repo_all_noPool u repo (i + 1) total cr sr rf st)
        simp [List.countP_append, List.countP_cons, isCompleteAct, h0]
        omega

/-- No step of the futures loop emits a `submit` action. -/
theorem pool_fold_submit_count (u : String) (tasks : List (Repo × TaskRun)) (total : Nat) :
    ∀ (order : List Nat) (tot comp : Nat) (st : FoundData) (evs : List Act),
      ((order.foldl (pool_step u tasks total) (tot, comp, st, evs)).2.2.2).countP isSubmitAct
        = evs.countP isSubmitAct := by
  intro order
  induction order with
  | nil => intro tot comp st evs; simp
  | cons i order' ih =>
    intro tot comp st evs
    rw [List.foldl_cons]
    cases h : tasks[i]? with
    | none =>
      rw [pool_step_none h]
      exact ih tot comp st evs
    | some tr =>
      obtain ⟨repo, run⟩ := tr
      cases run with
      | raises msg =>
        rw [pool_step_raises h, ih]
        simp [List.countP_append, List.countP_cons, isSubmitAct]
      | normal cr sr rf =>
        rw [pool_step_normal h, ih]
        have h0 := countP_submit_eq_zero_of_noPool
          (scan_single_repo_all_noPool u repo (i + 1) total cr sr rf st)
        simp [List.countP_append, List.countP_cons, isSubmitAct, h0]

/-- The futures loop never removes emails from the aggregate. -/
theorem pool_fold_emails_mono (u : String) (tasks : List (Repo × TaskRun)) (total : Nat) :
    ∀ (order : List Nat) (tot comp : Nat) (st : FoundData) (evs : List Act),
      st.emails ⊆ ((order.foldl (pool_step u tasks total) (tot, comp, st, evs)).2.2.1).emails := by
  intro order
  induction order with
  | nil => intro tot comp st evs; exact Finset.Subset.refl _
  | cons i order' ih =>
    intro tot comp st evs
    rw [List.foldl_cons]
    cases h : tasks[i]? with
    | none =>
      rw [pool_step_none h]
      exact ih tot comp st evs
    | some tr =>
      obtain ⟨repo, run⟩ := tr
      cases run with
      | raises msg =>
        rw [pool_step_raises h]
        exact ih tot comp st _
      | normal cr sr rf =>
        rw [pool_step_normal h]
        refine Finset.Subset.trans ?_ (ih _ _ _ _)
        rw [scan_single_repo_emails]
        exact Finset.subset_union_left

/-- A successfully processed task's mined emails end up in the final
aggregate. -/
theorem pool_fold_contrib (u : String) (tasks : List (Repo × TaskRun)) (total : Nat) :
    ∀ (order : List Nat) (tot comp : Nat) (st : FoundData) (evs : List Act)
      (i : Nat) (repo : Repo) (cr : FetchResult (List Commit)) (sr : FetchResult SearchData)
      (rf : String → FetchResult String),
      i ∈ order → tasks[i]? = some (repo, .normal cr sr rf) →
      task_emails u repo cr sr rf ⊆
        ((order.foldl (pool_step u tasks total) (tot, comp, st, evs)).2.2.1).emails := by
  intro order
  induction order with
  | nil => intro _ _ _ _ _ _ _ _ _ hmem _; cases hmem
  | cons j order' ih =>
    intro tot comp st evs i repo cr sr rf hmem h
    rw [List.foldl_cons]
    rcases List.mem_cons.mp hmem with rfl | hmem'
    · rw [pool_step_normal h]
      refine Finset.Subset.trans ?_ (pool_fold_emails_mono u tasks total order' _ _ _ _)
      rw [scan_single_repo_emails]
      exact Finset.subset_union_right
    · cases hj : tasks[j]? with
      | none =>
        rw [pool_step_none hj]
        exact ih tot comp st evs i repo cr sr rf hmem' h
      | some tr =>
        obtain ⟨repo', run'⟩ := tr
        cases run' with
        | raises msg =>
          rw [pool_step_raises hj]
          exact ih tot comp st _ i repo cr sr rf hmem' h
        | normal cr' sr' rf' =>
          rw [pool_step_normal hj]
          exact ih _ _ _ _ i repo cr sr rf hmem' h

/-- A raising task's failure is caught and logged by the futures loop. -/
theorem pool_fold_raises_logged (u : String) (tasks : List (Repo × TaskRun)) (total : Nat) :
    ∀ (order : List Nat) (tot comp : Nat) (st : FoundData) (evs : List Act)
      (i : Nat) (repo : Repo) (msg : String),
      i ∈ order → tasks[i]? = some (repo, .raises msg) →
      Act.logError ("Repository scan failed: " ++ msg) ∈
        (order.foldl (pool_step u tasks total) (tot, comp, st, evs)).2.2.2 := by
  intro order
  induction order with
  | nil => intro _ _ _ _ _ _ _ hmem _; cases hmem
  | cons j order' ih =>
    intro tot comp st evs i repo msg hmem h
    rw [List.foldl_cons]
    rcases List.mem_cons.mp hmem with rfl | hmem'
    · rw [pool_step_raises h]
      obtain ⟨tail, htail⟩ := pool_fold_events_extend u tasks total order' tot comp st
        (evs ++ [.complete repo.name, .logError ("Repository scan failed: " ++ msg)])
      rw [htail]
      refine List.mem_append_left _ (List.mem_append_right _ ?_)
      simp
    · cases hj : tasks[j]? with
      | none =>
        rw [pool_step_none hj]
        exact ih tot comp st evs i repo msg hmem' h
      | some tr =>
        obtain ⟨repo', run'⟩ := tr
        cases run' with
        | raises msg' =>
          rw [pool_step_raises hj]
          exact ih tot comp st _ i repo msg hmem' h
        | normal cr' sr' rf' =>
          rw [pool_step_normal hj]
          exact ih _ _ _ _ i repo msg hmem' h

/-- The initial trace of `scan_repositories`: the analyzing log line and
one `submit` per task (the dict comprehension submits them all). -/
def pool_init_evs (threads : Nat) (tasks : List (Repo × TaskRun)) : List Act :=
  Act.logInfo ("Analyzing " ++ toString tasks.length ++ " repositories with " ++
    toString threads ++ " threads...")
    :: tasks.map fun t => Act.submit t.1.name

/-- The futures-loop fold underlying `scan_repositories`. -/
def pool_fold_result (u : String) (threads : Nat) (tasks : List (Repo × TaskRun))
    (order : List Nat) (st : FoundData) : Nat × Nat × FoundData × List Act :=
  order.foldl (pool_step u tasks tasks.length) (0, 0, st, pool_init_evs threads tasks)

theorem scan_repositories_state_eq (u : String) (threads : Nat)
    (tasks : List (Repo × TaskRun)) (order : List Nat) (st : FoundData) :
    (scan_repositories u threads tasks order st).2.1 =
      (pool_fold_result u threads tasks order st).2.2.1 := rfl

theorem scan_repositories_events_eq (u : String) (threads : Nat)
    (tasks : List (Repo × TaskRun)) (order : List Nat) (st : FoundData) :
    (scan_repositories u threads tasks order st).2.2 =
      (pool_fold_result u threads tasks order st).2.2.2 ++
        [Act.logSuccess ("Repository scanning completed. Found " ++
          toString (pool_fold_result u threads tasks order st).1 ++ " emails total")] := rfl

theorem pool_init_evs_submit_count (threads : Nat) (tasks : List (Repo × TaskRun)) :
    (pool_init_evs threads tasks).countP isSubmitAct = tasks.length := by
  simp only [pool_init_evs, List.countP_cons, List.countP_map]
  have h1 : (isSubmitAct ∘ fun t : Repo × TaskRun => Act.submit t.1.name) = fun _ => true :=
    funext fun t => rfl
  rw [h1, List.countP_true]
  simp [isSubmitAct]

theorem pool_init_evs_complete_count (threads : Nat) (tasks : List (Repo × TaskRun)) :
    (pool_init_evs threads tasks).countP isCompleteAct = 0 := by
  simp only [pool_init_evs, List.countP_cons, List.countP_map]
  have h1 : (isCompleteAct ∘ fun t : Repo × TaskRun => Act.submit t.1.name) = fun _ => false :=
    funext fun t => rfl
  rw [h1, List.countP_false]
  simp [isCompleteAct]

/-- Under any completion order that is a permutation of the task indices,
the futures loop emits exactly one `complete` per task. -/
theorem scan_repositories_complete_count (u : String) (threads : Nat)
    (tasks : List (Repo × TaskRun)) (order : List Nat) (st : FoundData)
    (hperm : order.Perm (List.range tasks.length)) :
    ((scan_repositories u threads tasks order st).2.2).countP isCompleteAct
      = tasks.length := by
  have hvalid : ∀ i ∈ order, i < tasks.length := fun i hi =>
    List.mem_range.mp (hperm.mem_iff.mp hi)
  have hlen : order.length = tasks.length := by
    rw [hperm.length_eq, List.length_range]
  rw [scan_repositories_events_eq, List.countP_append]
  rw [show (pool_fold_result u threads tasks order st).2.2.2
      = (order.foldl (pool_step u tasks tasks.length)
          (0, 0, st, pool_init_evs threads tasks)).2.2.2 from rfl]
  rw [pool_fold_complete_count u tasks tasks.length order hvalid 0 0 st
    (pool_init_evs threads tasks)]
  rw [pool_init_evs_complete_count]
  simp [isCompleteAct, hlen]

/-- Exactly one `submit` per task, regardless of completion order. -/
theorem scan_repositories_submit_count (u : String) (threads : Nat)
    (tasks : List (Repo × TaskRun)) (order : List Nat) (st : FoundData) :
    ((scan_repositories u threads tasks order st).2.2).countP isSubmitAct
      = tasks.length := by
  rw [scan_repositories_events_eq, List.countP_append]
  rw [show (pool_fold_result u threads tasks order st).2.2.2
      = (order.foldl (pool_step u tasks tasks.length)
          (0, 0, st, pool_init_evs threads tasks)).2.2.2 from rfl]
  rw [pool_fold_submit_count u tasks tasks.length order 0 0 st (pool_init_evs threads tasks)]
  rw [pool_init_evs_submit_count]
  simp [isSubmitAct]

/-! ## Claim C6 -/

/-- **C6 counterexample.**  The orchestration-level error log does *not*
identify the failing repository: `scan_repositories` logs only
`"Repository scan failed: " + exception text`.  Two runs in which
different repositories (`proj` vs `tools`) fail with the same exception
produce *identical* error-log lines, so the message cannot identify
which repository failed. -/
theorem C6_counterexample_log_not_identifying :
    sampleRepo.name ≠ sampleRepoB.name ∧
    ((scan_repositories "octo" 5 [(sampleRepo, .raises "boom")] [0]
        initFoundData).2.2).filter isLogErrorAct =
      ((scan_repositories "octo" 5 [(sampleRepoB, .raises "boom")] [0]
        initFoundData).2.2).filter isLogErrorAct := by
  exact ⟨by decide, by decide⟩

/-- **C6** (corrected).  If one repository's scan task raises, the
exception is caught at the orchestration level and logged as
`"Repository scan failed: " + exception text` (which need not identify
the failing repository); sibling tasks and the pool are not cancelled —
every submitted future is still processed (`tasks.length` completions) —
and the run finishes with the aggregate containing the emails mined by
every non-failing task. -/
theorem C6_task_failure_isolated (u : String) (threads : Nat)
    (tasks : List (Repo × TaskRun)) (order : List Nat) (st : FoundData)
    (hperm : order.Perm (List.range tasks.length)) :
    (∀ (i : Nat) (repo : Repo) (msg : String),
      tasks[i]? = some (repo, .raises msg) →
      Act.logError ("Repository scan failed: " ++ msg) ∈
        (scan_repositories u threads tasks order st).2.2) ∧
    ((scan_repositories u threads tasks order st).2.2).countP isCompleteAct
      = tasks.length ∧
    (∀ (i : Nat) (repo : Repo) (cr : FetchResult (List Commit))
        (sr : FetchResult SearchData) (rf : String → FetchResult String),
      tasks[i]? = some (repo, .normal cr sr rf) →
      task_emails u repo cr sr rf ⊆
        (scan_repositories u threads tasks order st).2.1.emails) := by
  refine ⟨?_, scan_repositories_complete_count u threads tasks order st hperm, ?_⟩
  · intro i repo msg h
    have hlt : i < tasks.length := (List.getElem?_eq_some.mp h).1
    have hmem : i ∈ order := hperm.mem_iff.mpr (List.mem_range.mpr hlt)
    rw [scan_repositories_events_eq]
    exact List.mem_append_left _
      (pool_fold_raises_logged u tasks tasks.length order 0 0 st
        (pool_init_evs threads tasks) i repo msg hmem h)
  · intro i repo cr sr rf h
    have hlt : i < tasks.length := (List.getElem?_eq_some.mp h).1
    have hmem : i ∈ order := hperm.mem_iff.mpr (List.mem_range.mpr hlt)
    rw [scan_repositories_state_eq]
    exact pool_fold_contrib u tasks tasks.length order 0 0 st
      (pool_init_evs threads tasks) i repo cr sr rf hmem h

set_option maxRecDepth 8000 in
/-- Witness for C6 at a concrete input: of two tasks, the second raises;
the failure is logged, both futures are processed, and the first task's
mined email `alice@gmail.com` is in the final aggregate. -/
theorem C6_task_failure_isolated_witness :
    Act.logError ("Repository scan failed: " ++ "boom") ∈
      (scan_repositories "octo" 5
        [(sampleRepo, .normal (.ok [⟨some "alice@gmail.com", none⟩]) (.httpStatus 404)
            fun _ => .exn "e"),
         (sampleRepoB, .raises "boom")] [1, 0] initFoundData).2.2 ∧
    "alice@gmail.com" ∈
      (scan_repositories "octo" 5
        [(sampleRepo, .normal (.ok [⟨some "alice@gmail.com", none⟩]) (.httpStatus 404)
            fun _ => .exn "e"),
         (sampleRepoB, .raises "boom")] [1, 0] initFoundData).2.1.emails := by
  have h := C6_task_failure_isolated "octo" 5
    [(sampleRepo, .normal (.ok [⟨some "alice@gmail.com", none⟩]) (.httpStatus 404)
        fun _ => .exn "e"),
     (sampleRepoB, .raises "boom")] [1, 0] initFoundData (by decide)
  refine ⟨h.1 1 sampleRepoB "boom" rfl, ?_⟩
  refine h.2.2 0 sampleRepo (.ok [⟨some "alice@gmail.com", none⟩]) (.httpStatus 404)
    (fun _ => .exn "e") rfl ?_
  decide

/-! ## Claim C3 -/

/-- **C3** (confirmed).  For a run over `N` discovered repositories:
exactly `N` repository-scan tasks are submitted to the pool, and exactly
`N` futures are processed (successfully or with a logged failure), all
within the trace segment that strictly precedes the account-phase
segment; the account phase (profile, events, organizations, gists)
contains no submission and no completion, so every task completes before
any account-level fetch begins or its fields are read. -/
theorem C3_fanout_completes_before_account (u : String) (threads : Nat)
    (pages : List PageResult) (runOf : Repo → TaskRun) (order : List Nat)
    (pr : FetchResult UserData) (er : FetchResult (List RawEvent))
    (orr : FetchResult (List Org)) (gr : FetchResult (List Gist)) (st : FoundData)
    (repos : List Repo) (pevs : List Act)
    (hget : get_all_repos u pages = (some repos, pevs))
    (hperm : order.Perm (List.range repos.length)) :
    run_scan u threads pages runOf order pr er orr gr st =
      some ((account_phase u pr er orr gr (scan_phase u threads repos runOf order st).1).1,
        pevs ++ (scan_phase u threads repos runOf order st).2 ++
          (account_phase u pr er orr gr (scan_phase u threads repos runOf order st).1).2) ∧
    (pevs ++ (scan_phase u threads repos runOf order st).2).countP isSubmitAct
      = repos.length ∧
    (pevs ++ (scan_phase u threads repos runOf order st).2).countP isCompleteAct
      = repos.length ∧
    ((account_phase u pr er orr gr
        (scan_phase u threads repos runOf order st).1).2).countP isSubmitAct = 0 ∧
    ((account_phase u pr er orr gr
        (scan_phase u threads repos runOf order st).1).2).countP isCompleteAct = 0 := by
  have hpevs : (get_all_repos u pages).2 = pevs := congrArg Prod.snd hget
  have hp0s : pevs.countP isSubmitAct = 0 := by
    rw [← hpevs]
    exact countP_submit_eq_zero_of_noPool (get_all_repos_all_noPool u pages)
  have hp0c : pevs.countP isCompleteAct = 0 := by
    rw [← hpevs]
    exact countP_complete_eq_zero_of_noPool (get_all_repos_all_noPool u pages)
  have hacc := account_phase_all_noPool u pr er orr gr
    (scan_phase u threads repos runOf order st).1
  refine ⟨?_, ?_, ?_,
    countP_submit_eq_zero_of_noPool hacc, countP_complete_eq_zero_of_noPool hacc⟩
  · unfold run_scan
    rw [hget]
  · by_cases hre : repos.isEmpty
    · have h0 : repos = [] := List.isEmpty_iff.mp hre
      subst h0
      simp [scan_phase, hp0s]
    · rw [List.countP_append, hp0s]
      have hsp : (scan_phase u threads repos runOf order st).2 =
          (scan_repositories u threads (repos.map fun r => (r, runOf r)) order st).2.2 := by
        simp [scan_phase, hre]
      rw [hsp, scan_repositories_submit_count]
      simp [List.length_map]
  · by_cases hre : repos.isEmpty
    · have h0 : repos = [] := List.isEmpty_iff.mp hre
      subst h0
      simp [scan_phase, hp0c]
    · rw [List.countP_append, hp0c]
      have hsp : (scan_phase u threads repos runOf order st).2 =
          (scan_repositories u threads (repos.map fun r => (r, runOf r)) order st).2.2 := by
        simp [scan_phase, hre]
      have hperm' : order.Perm (List.range (repos.map fun r => (r, runOf r)).length) := by
        rw [List.length_map]
        exact hperm
      rw [hsp, scan_repositories_complete_count u threads _ order st hperm']
      simp [List.length_map]

set_option maxRecDepth 8000 in
/-- Witness for C3 at a concrete input: one discovered repository, one
submitted task, one processed completion — all before the account
phase — via the theorem with its hypotheses discharged concretely. -/
theorem C3_fanout_completes_before_account_witness :
    ((get_all_repos "octo" [FetchResult.ok [sampleRepo]]).2 ++
      (scan_phase "octo" 5 [sampleRepo] (fun _ => TaskRun.raises "boom") [0]
        initFoundData).2).countP isCompleteAct = [sampleRepo].length := by
  exact (C3_fanout_completes_before_account "octo" 5 [FetchResult.ok [sampleRepo]]
    (fun _ => TaskRun.raises "boom") [0] (.exn "e") (.exn "e") (.exn "e") (.exn "e")
    initFoundData [sampleRepo] ((get_all_repos "octo" [FetchResult.ok [sampleRepo]]).2)
    rfl (by decide)).2.2.1

end GitScan
